import Mathlib

/-
Verification of the Maglev mid-tier compiler (graph builder, IR node
properties, parallel move resolver, deoptimization metadata) against its
natural-language specification.  Each definition below is a shallow
embedding of a function or data structure of the C++ sources under
src/maglev (maglev-ir.h, maglev-ir.cc, maglev-graph-builder.cc,
maglev-code-generator.cc); the source file and function are named next to
each definition.
-/

namespace Maglev

/-! ### OpProperties (maglev-ir.h, class OpProperties)

The C++ `OpProperties` is a `uint32_t` bitfield built from
`base::BitField` slices: bit 0 `kIsCallBit`, bit 1 `kCanEagerDeoptBit`,
bit 2 `kCanLazyDeoptBit`, bit 3 `kCanReadBit`, bit 4 `kCanWriteBit`,
bit 5 `kNonMemorySideEffectsBit`, bits 6-7 `kValueRepresentationBits`
(kTagged = 0, kInt32 = 1, kFloat64 = 2), bit 8 `kIsConversionBit`,
bit 9 `kNeedsRegisterSnapshotBit`.  `operator|` is bitwise or.  We model
the bitfield as a `Nat`. -/

namespace OpProperties

def PureProps : Nat := 0
def CallProps : Nat := 1
def EagerDeoptProps : Nat := 2
def LazyDeoptProps : Nat := 4
def ReadingProps : Nat := 8
def WritingProps : Nat := 16
def NonMemorySideEffectsProps : Nat := 32
def TaggedValueProps : Nat := 0
def Int32Props : Nat := 64
def Float64Props : Nat := 128
def ConversionNodeProps : Nat := 256
def NeedsRegisterSnapshotProps : Nat := 512
/-- `JSCall() { return Call() | NonMemorySideEffects() | LazyDeopt(); }` -/
def JSCallProps : Nat := CallProps ||| NonMemorySideEffectsProps ||| LazyDeoptProps
/-- `DeferredCall() { return NeedsRegisterSnapshot(); }` -/
def DeferredCallProps : Nat := NeedsRegisterSnapshotProps

/-- `can_eager_deopt()`: decode bit 1 of the bitfield. -/
def canEagerDeopt (p : Nat) : Bool := p.testBit 1

/-- `can_lazy_deopt()`: decode bit 2 of the bitfield. -/
def canLazyDeopt (p : Nat) : Bool := p.testBit 2

end OpProperties

open OpProperties in
/-- The static property set `kProperties` of every concrete node type of
maglev-ir.h, collected from each class declaration.  Node types that do
not declare their own `kProperties` inherit the `NodeBase` default
`OpProperties::Pure() | OpProperties::TaggedValue()` (= 0).  The mixin
bases supply the values for their instantiations:
`UnaryWithFeedbackNode`/`BinaryWithFeedbackNode` = JSCall (all Generic*
nodes), `Int32BinaryWithOverflowNode` and `Int32BinaryNode` =
EagerDeopt|Int32, `Float64BinaryNode` = Float64, and the
Int32/Float64 compare mixins use the default. -/
def nodePropertiesTable : List (String × Nat) := [
  ("CheckMaps", EagerDeoptProps),
  ("CheckSmi", EagerDeoptProps),
  ("CheckNumber", EagerDeoptProps),
  ("CheckHeapObject", EagerDeoptProps),
  ("CheckSymbol", EagerDeoptProps),
  ("CheckString", EagerDeoptProps),
  ("CheckMapsWithMigration", EagerDeoptProps ||| DeferredCallProps),
  ("StoreTaggedFieldNoWriteBarrier", WritingProps),
  ("StoreTaggedFieldWithWriteBarrier", WritingProps ||| DeferredCallProps),
  ("IncreaseInterruptBudget", PureProps ||| TaggedValueProps),
  ("ReduceInterruptBudget", DeferredCallProps),
  ("ThrowReferenceErrorIfHole", LazyDeoptProps ||| DeferredCallProps),
  ("ThrowSuperNotCalledIfHole", LazyDeoptProps ||| DeferredCallProps),
  ("ThrowSuperAlreadyCalledIfNotHole", LazyDeoptProps ||| DeferredCallProps),
  ("ThrowIfNotSuperConstructor", LazyDeoptProps ||| DeferredCallProps),
  ("ConstantGapMove", PureProps ||| TaggedValueProps),
  ("GapMove", PureProps ||| TaggedValueProps),
  ("Call", JSCallProps),
  ("CallBuiltin", JSCallProps),
  ("CallRuntime", JSCallProps),
  ("CallWithSpread", JSCallProps),
  ("Construct", JSCallProps),
  ("ConstructWithSpread", JSCallProps),
  ("CreateEmptyArrayLiteral", CallProps),
  ("CreateArrayLiteral", CallProps),
  ("CreateShallowArrayLiteral", CallProps),
  ("CreateObjectLiteral", CallProps),
  ("CreateEmptyObjectLiteral", DeferredCallProps),
  ("CreateShallowObjectLiteral", CallProps),
  ("CreateFunctionContext", CallProps),
  ("CreateClosure", CallProps),
  ("FastCreateClosure", CallProps),
  ("CreateRegExpLiteral", CallProps),
  ("DeleteProperty", JSCallProps),
  ("ForInPrepare", CallProps),
  ("ForInNext", JSCallProps),
  ("GetSecondReturnedValue", PureProps ||| TaggedValueProps),
  ("GetTemplateObject", CallProps),
  ("InitialValue", PureProps ||| TaggedValueProps),
  ("LoadTaggedField", ReadingProps),
  ("LoadDoubleField", ReadingProps ||| Float64Props),
  ("LoadGlobal", JSCallProps),
  ("LoadNamedGeneric", JSCallProps),
  ("LoadNamedFromSuperGeneric", JSCallProps),
  ("SetNamedGeneric", JSCallProps),
  ("DefineNamedOwnGeneric", JSCallProps),
  ("StoreInArrayLiteralGeneric", JSCallProps),
  ("StoreGlobal", JSCallProps),
  ("GetKeyedGeneric", JSCallProps),
  ("SetKeyedGeneric", JSCallProps),
  ("DefineKeyedOwnGeneric", JSCallProps),
  ("Phi", PureProps ||| TaggedValueProps),
  ("RegisterInput", PureProps ||| TaggedValueProps),
  ("CheckedSmiTag", EagerDeoptProps ||| ConversionNodeProps),
  ("CheckedSmiUntag", EagerDeoptProps ||| Int32Props ||| ConversionNodeProps),
  ("CheckedInternalizedString",
    EagerDeoptProps ||| TaggedValueProps ||| ConversionNodeProps),
  ("ChangeInt32ToFloat64", Float64Props ||| ConversionNodeProps),
  ("Float64Box", DeferredCallProps ||| ConversionNodeProps),
  ("CheckedFloat64Unbox", EagerDeoptProps ||| Float64Props ||| ConversionNodeProps),
  ("LogicalNot", PureProps ||| TaggedValueProps),
  ("SetPendingMessage", PureProps ||| TaggedValueProps),
  ("ToBooleanLogicalNot", PureProps ||| TaggedValueProps),
  ("TaggedEqual", PureProps ||| TaggedValueProps),
  ("TaggedNotEqual", PureProps ||| TaggedValueProps),
  ("TestInstanceOf", JSCallProps),
  ("TestUndetectable", PureProps ||| TaggedValueProps),
  ("TestTypeOf", PureProps ||| TaggedValueProps),
  ("ToName", JSCallProps),
  ("ToNumberOrNumeric", JSCallProps),
  ("ToObject", JSCallProps),
  ("ToString", JSCallProps),
  ("Constant", PureProps ||| TaggedValueProps),
  ("Float64Constant", Float64Props),
  ("Int32Constant", Int32Props),
  ("RootConstant", PureProps ||| TaggedValueProps),
  ("SmiConstant", PureProps ||| TaggedValueProps),
  ("Int32AddWithOverflow", EagerDeoptProps ||| Int32Props),
  ("Int32SubtractWithOverflow", EagerDeoptProps ||| Int32Props),
  ("Int32MultiplyWithOverflow", EagerDeoptProps ||| Int32Props),
  ("Int32DivideWithOverflow", EagerDeoptProps ||| Int32Props),
  ("Int32BitwiseAnd", EagerDeoptProps ||| Int32Props),
  ("Int32BitwiseOr", EagerDeoptProps ||| Int32Props),
  ("Int32BitwiseXor", EagerDeoptProps ||| Int32Props),
  ("Int32ShiftLeft", EagerDeoptProps ||| Int32Props),
  ("Int32ShiftRight", EagerDeoptProps ||| Int32Props),
  ("Int32ShiftRightLogical", EagerDeoptProps ||| Int32Props),
  ("Int32Equal", PureProps ||| TaggedValueProps),
  ("Int32StrictEqual", PureProps ||| TaggedValueProps),
  ("Int32LessThan", PureProps ||| TaggedValueProps),
  ("Int32LessThanOrEqual", PureProps ||| TaggedValueProps),
  ("Int32GreaterThan", PureProps ||| TaggedValueProps),
  ("Int32GreaterThanOrEqual", PureProps ||| TaggedValueProps),
  ("Float64Add", Float64Props),
  ("Float64Subtract", Float64Props),
  ("Float64Multiply", Float64Props),
  ("Float64Divide", Float64Props),
  ("Float64Equal", PureProps ||| TaggedValueProps),
  ("Float64StrictEqual", PureProps ||| TaggedValueProps),
  ("Float64LessThan", PureProps ||| TaggedValueProps),
  ("Float64LessThanOrEqual", PureProps ||| TaggedValueProps),
  ("Float64GreaterThan", PureProps ||| TaggedValueProps),
  ("Float64GreaterThanOrEqual", PureProps ||| TaggedValueProps),
  ("GenericAdd", JSCallProps),
  ("GenericSubtract", JSCallProps),
  ("GenericMultiply", JSCallProps),
  ("GenericDivide", JSCallProps),
  ("GenericModulus", JSCallProps),
  ("GenericExponentiate", JSCallProps),
  ("GenericBitwiseAnd", JSCallProps),
  ("GenericBitwiseOr", JSCallProps),
  ("GenericBitwiseXor", JSCallProps),
  ("GenericShiftLeft", JSCallProps),
  ("GenericShiftRight", JSCallProps),
  ("GenericShiftRightLogical", JSCallProps),
  ("GenericBitwiseNot", JSCallProps),
  ("GenericNegate", JSCallProps),
  ("GenericIncrement", JSCallProps),
  ("GenericDecrement", JSCallProps),
  ("GenericEqual", JSCallProps),
  ("GenericStrictEqual", JSCallProps),
  ("GenericLessThan", JSCallProps),
  ("GenericLessThanOrEqual", JSCallProps),
  ("GenericGreaterThan", JSCallProps),
  ("GenericGreaterThanOrEqual", JSCallProps),
  ("Abort", PureProps ||| TaggedValueProps),
  ("Return", PureProps ||| TaggedValueProps),
  ("Deopt", EagerDeoptProps),
  ("Switch", PureProps ||| TaggedValueProps),
  ("BranchIfRootConstant", PureProps ||| TaggedValueProps),
  ("BranchIfToBooleanTrue", CallProps),
  ("BranchIfReferenceCompare", PureProps ||| TaggedValueProps),
  ("BranchIfInt32Compare", PureProps ||| TaggedValueProps),
  ("BranchIfFloat64Compare", PureProps ||| TaggedValueProps),
  ("BranchIfUndefinedOrNull", PureProps ||| TaggedValueProps),
  ("BranchIfJSReceiver", PureProps ||| TaggedValueProps),
  ("Jump", PureProps ||| TaggedValueProps),
  ("JumpLoop", PureProps ||| TaggedValueProps),
  ("JumpToInlined", PureProps ||| TaggedValueProps),
  ("JumpFromInlined", PureProps ||| TaggedValueProps)]

/-- Guard of `NodeBase::eager_deopt_info()` (maglev-ir.h:721): the
accessor carries `DCHECK(properties().can_eager_deopt())` and
`DCHECK(!properties().can_lazy_deopt())`, so it is valid exactly for
this combination of property bits. -/
def eagerDeoptInfoAccessOk (p : Nat) : Bool :=
  OpProperties.canEagerDeopt p && !(OpProperties.canLazyDeopt p)

/-- Guard of `NodeBase::lazy_deopt_info()` (maglev-ir.h:733): valid
exactly when `can_lazy_deopt` holds and `can_eager_deopt` does not. -/
def lazyDeoptInfoAccessOk (p : Nat) : Bool :=
  OpProperties.canLazyDeopt p && !(OpProperties.canEagerDeopt p)

/-! ### Int32 fast-path code generation (maglev-ir.cc)

The `GenerateCode` bodies of the Int32 speculative nodes emit a short
x64 sequence; we give each sequence its machine semantics on exact
integers (`Int`), with 32-bit ranges made explicit. -/

def int32Min : Int := -(2 ^ 31)
def int32Max : Int := 2 ^ 31 - 1

def isInt32 (v : Int) : Bool := decide (int32Min ≤ v ∧ v ≤ int32Max)

/-- Outcome of executing one emitted fast-path sequence: a value in the
result register, a taken eager-deopt branch, or a hardware fault (the
x64 `idiv` instruction raises the #DE divide-error exception on a zero
divisor or an unrepresentable quotient; that is not a deoptimization). -/
inductive FastPathResult
  | value (v : Int)
  | eagerDeopt
  | machineFault
deriving DecidableEq

/-- `Int32AddWithOverflow::GenerateCode` (maglev-ir.cc:1857):
`addl left, right; EmitEagerDeoptIf(overflow, kOverflow)`.  The 32-bit
add overflows exactly when the exact sum leaves the int32 range; on
overflow the eager-deopt branch is taken, otherwise the register holds
the exact sum. -/
def Int32AddWithOverflow_GenerateCode (left right : Int) : FastPathResult :=
  let sum := left + right
  if isInt32 sum then .value sum else .eagerDeopt

/-- `CheckedSmiTag::GenerateCode` (maglev-ir.cc:2214):
`addl reg, reg; EmitEagerDeoptIf(overflow, kOverflow)`.  Tagging doubles
the value (a Smi is the integer shifted left by one); the add overflows
exactly when the doubled value leaves the int32 range, i.e. when the
value is outside the 31-bit Smi range. -/
def CheckedSmiTag_GenerateCode (value : Int) : FastPathResult :=
  let doubled := value + value
  if isInt32 doubled then .value doubled else .eagerDeopt

/-- `Int32DivideWithOverflow::GenerateCode` (maglev-ir.cc:1926):
`movl rax, left; xorl rdx, rdx; idivl right; cmpl rdx, 0;
EmitEagerDeoptIf(not_equal, kNotInt32)`.  Because the code clears `rdx`
instead of sign-extending `rax` (`cdq`), the 64-bit dividend `rdx:rax`
seen by `idivl` is the 32-bit pattern of `left` zero-extended, i.e.
`left mod 2^32` as a non-negative number.  `idivl` truncates the
quotient toward zero, raises #DE when the divisor is zero or the
quotient does not fit in signed 32 bits, and otherwise leaves the
quotient in `rax` and the remainder in `rdx`; the emitted guard deopts
when the remainder is non-zero. -/
def Int32DivideWithOverflow_GenerateCode (left right : Int) : FastPathResult :=
  let dividend : Int := left % (2 ^ 32)
  if right = 0 then .machineFault
  else
    let quotient := Int.tdiv dividend right
    let remainder := dividend - quotient * right
    if quotient < int32Min ∨ quotient > int32Max then .machineFault
    else if remainder = 0 then .value quotient
    else .eagerDeopt

/-! ### Bytecode-to-graph builder dispatch (maglev-graph-builder.cc) -/

/-- `Operation` (operations on bytecodes, src/common/operation.h). -/
inductive Operation
  | add | subtract | multiply | divide | modulus | exponentiate
  | bitwiseAnd | bitwiseOr | bitwiseXor
  | shiftLeft | shiftRight | shiftRightLogical
  | bitwiseNot | negate | increment | decrement
  | equal | strictEqual | lessThan | lessThanOrEqual
  | greaterThan | greaterThanOrEqual
deriving DecidableEq

/-- `BinaryOperationHint` runtime feedback states. -/
inductive BinaryOperationHint
  | kNone | kSignedSmall | kSignedSmallInputs | kNumber | kNumberOrOddball
  | kString | kBigInt | kAny
deriving DecidableEq

/-- `DeoptimizeReason` values used by the embedded builder paths. -/
inductive DeoptReason
  | insufficientTypeFeedbackForBinaryOperation
  | insufficientTypeFeedbackForCall
deriving DecidableEq

/-- A node emitted by the builder for one arithmetic bytecode. -/
inductive EmittedOperationNode
  | deoptNode (reason : DeoptReason)
  | int32Node (op : Operation)
  | float64Node (op : Operation)
  | genericNode (op : Operation)
deriving DecidableEq

/-- `BinaryOperationHasInt32FastPath` (maglev-graph-builder.cc:234). -/
def BinaryOperationHasInt32FastPath (op : Operation) : Bool :=
  match op with
  | .add | .subtract | .multiply | .divide
  | .bitwiseAnd | .bitwiseOr | .bitwiseXor
  | .shiftLeft | .shiftRight | .shiftRightLogical
  | .equal | .strictEqual | .lessThan | .lessThanOrEqual
  | .greaterThan | .greaterThanOrEqual => true
  | _ => false

/-- `BinaryOperationHasFloat64FastPath` (maglev-graph-builder.cc:258). -/
def BinaryOperationHasFloat64FastPath (op : Operation) : Bool :=
  match op with
  | .add | .subtract | .multiply | .divide => true
  | _ => false

/-- `MaglevGraphBuilder::VisitBinaryOperation` (maglev-graph-builder.cc:426):
dispatch on the feedback hint; `kNone` emits an unconditional deopt,
`kSignedSmall` takes the int32 fast path when one exists,
`kSignedSmallInputs`/`kNumber` take the float64 fast path when one
exists, everything else falls back to the generic node. -/
def VisitBinaryOperation (op : Operation) (hint : BinaryOperationHint) :
    EmittedOperationNode :=
  match hint with
  | .kNone => .deoptNode .insufficientTypeFeedbackForBinaryOperation
  | .kSignedSmall =>
    if BinaryOperationHasInt32FastPath op then .int32Node op
    else .genericNode op
  | .kSignedSmallInputs | .kNumber =>
    if BinaryOperationHasFloat64FastPath op then .float64Node op
    else .genericNode op
  | _ => .genericNode op

/-- `MaglevGraphBuilder::VisitUnaryOperation` (maglev-graph-builder.cc:419):
the body is `BuildGenericUnaryOperationNode<kOperation>()` under a
`TODO(victorgomes): Use feedback info and create optimized versions.`
comment — the feedback hint is never consulted. -/
def VisitUnaryOperation (op : Operation) (_hint : BinaryOperationHint) :
    EmittedOperationNode :=
  .genericNode op

/-! ### Call building and inlining (maglev-graph-builder.cc:2275-2342) -/

/-- The data of a `compiler::JSFunctionRef` call target that a
size/depth-limited inliner would consult.  `bytecodeLength` (the size of
the callee bytecode, reachable through `shared()`) and
`callSiteInliningDepth` (the builder nesting depth at the call) are
carried here so the threshold claim can be stated; the source of this
version reads neither. -/
structure JSFunctionData where
  hasFeedbackVector : Bool
  bytecodeLength : Nat
  callSiteInliningDepth : Nat
deriving DecidableEq

/-- A `compiler::HeapObjectRef` call-feedback target. -/
structure HeapObjectTarget where
  isJSFunction : Bool
  asJSFunction : JSFunctionData
deriving DecidableEq

/-- `CallFeedbackContent` of the processed feedback. -/
inductive CallFeedbackContent
  | target | receiver
deriving DecidableEq

/-- `compiler::ProcessedFeedback` for a call site: its `kind()` is
`kInsufficient`, `kCall` (with content and optional target), or some
other kind. -/
inductive ProcessedCallFeedback
  | insufficient
  | call (content : CallFeedbackContent) (callTarget : Option HeapObjectTarget)
  | otherKind
deriving DecidableEq

/-- The path `BuildCallFromRegisters` commits to for one call bytecode. -/
inductive CallBuildResult
  | emitDeopt (reason : DeoptReason)
  | inlineCall
  | genericCall
deriving DecidableEq

/-- `MaglevGraphBuilder::BuildCallFromRegisters` (maglev-graph-builder.cc:2275),
feedback dispatch: `kInsufficient` emits an unconditional deopt and
returns; `kCall` inlines via `InlineCallFromRegisters` when the
`maglev_inlining` flag is on, the feedback content is a target, the
target is present and is a `JSFunction` with a feedback vector
(each failed test `break`s to the generic call); every other kind falls
through to the generic `Call` node. -/
def BuildCallFromRegisters (maglevInlining : Bool)
    (feedback : ProcessedCallFeedback) : CallBuildResult :=
  match feedback with
  | .insufficient => .emitDeopt .insufficientTypeFeedbackForCall
  | .call content callTarget =>
    if !maglevInlining then .genericCall
    else
      match content, callTarget with
      | .target, some t =>
        if !t.isJSFunction then .genericCall
        else if !t.asJSFunction.hasFeedbackVector then .genericCall
        else .inlineCall
      | _, _ => .genericCall
  | .otherKind => .genericCall

/-- Nodes the call-building paths leave in the graph for the bytecode. -/
inductive EmittedCallNode
  | deoptNode (reason : DeoptReason)
  | callNode
  | inlinedBody
deriving DecidableEq

/-- Status of the compilation after processing one bytecode: normal
continuation, a whole-compilation bail-out (unsupported construct,
reported to the caller), or a fatal assertion. -/
inductive CompilationStatus
  | ok | bailout | fatal
deriving DecidableEq

/-- What one bytecode contributed: the nodes emitted for it and the
resulting compilation status. -/
structure BytecodeOutcome where
  nodes : List EmittedCallNode
  status : CompilationStatus
deriving DecidableEq

/-- Modelled from the spec: `EmitUnconditionalDeopt` is declared in
maglev-graph-builder.h, which is not among the sources here (only its
callers in maglev-graph-builder.cc are).  Per the spec it finishes the
current basic block with an unconditional `Deopt` node carrying the
reason and marks the rest of the bytecode dead, so nothing further is
emitted for this bytecode; it is an ordinary recoverable outcome, not a
bail-out and not fatal. -/
def EmitUnconditionalDeopt (reason : DeoptReason) : BytecodeOutcome :=
  ⟨[.deoptNode reason], .ok⟩

/-- The full outcome of `BuildCallFromRegisters` for one call bytecode. -/
def BuildCallFromRegistersOutcome (maglevInlining : Bool)
    (feedback : ProcessedCallFeedback) : BytecodeOutcome :=
  match BuildCallFromRegisters maglevInlining feedback with
  | .emitDeopt reason => EmitUnconditionalDeopt reason
  | .inlineCall => ⟨[.inlinedBody], .ok⟩
  | .genericCall => ⟨[.callNode], .ok⟩

/-! ### ParallelMoveResolver (maglev-code-generator.cc:85-430)

One resolver instance works over one register class; registers are
identified by their code (the C++ arrays are sized
`RegisterT::kNumRegisters`, the loops iterate the allocatable set).  The
scratch register (`kScratchRegister`, not allocatable) is modelled as
the separate location `MovLoc.scratch`.  Stack slots are identified by
their frame-pointer offset. -/

def kNumRegisters : Nat := 16

/-- The allocatable registers, iterated in ascending code order as a
`RegListBase` iteration does.  Which codes the platform marks
allocatable does not matter to the resolver; the model allocates all of
0..15 and keeps the scratch register outside this numbering. -/
def kAllocatableRegisters : List Nat := List.range kNumRegisters

/-- `GapMoveTargets` (maglev-code-generator.cc:142): the outgoing edges
of one source in the move graph, a `RegListBase` of target registers
(iterated in ascending code order; the model keeps the list sorted and
duplicate-free) plus a `SmallVector` of target stack slots in push
order. -/
structure GapMoveTargets where
  registers : List Nat
  stackSlots : List Nat
deriving DecidableEq

def emptyGapMoveTargets : GapMoveTargets := ⟨[], []⟩

/-- `GapMoveTargets::is_empty`. -/
def GapMoveTargets.isEmptyTargets (t : GapMoveTargets) : Bool :=
  t.registers.isEmpty && t.stackSlots.isEmpty

/-- `RegListBase::set`: insert a register code into the bitset (sorted,
no duplicates). -/
def regListSet (code : Nat) : List Nat → List Nat
  | [] => [code]
  | c :: rest =>
    if code < c then code :: c :: rest
    else if code = c then c :: rest
    else c :: regListSet code rest

/-- A source or target location of a recorded move: a register (by
code) or a stack slot (by frame-pointer offset).  These mirror the two
C++ overload types (`RegisterT` versus `uint32_t`), so a register and a
stack slot never compare equal even when their numbers coincide. -/
inductive MoveOrigin
  | reg (code : Nat)
  | stack (slot : Nat)
deriving DecidableEq

/-- The fields of `ParallelMoveResolver`: `moves_from_register_` (an
array indexed by source register code), `moves_from_stack_slot_` (an
`unordered_map` keyed by source slot, modelled as an association list in
insertion order), `materializing_register_moves_` (array indexed by
target register code holding the constant to materialize),
`materializing_stack_slot_moves_` (a vector of (target slot, constant)
pairs) and the `scratch_has_cycle_start_` flag.  Constant-node values
are carried as `Int`. -/
structure ParallelMoveResolverState where
  movesFromRegister : List GapMoveTargets
  movesFromStackSlot : List (Nat × GapMoveTargets)
  materializingRegisterMoves : List (Option Int)
  materializingStackSlotMoves : List (Nat × Int)
  scratchHasCycleStart : Bool
deriving DecidableEq

def initialResolver : ParallelMoveResolverState :=
  ⟨List.replicate kNumRegisters emptyGapMoveTargets, [],
   List.replicate kNumRegisters none, [], false⟩

def getRegTargets (st : ParallelMoveResolverState) (code : Nat) : GapMoveTargets :=
  st.movesFromRegister.getD code emptyGapMoveTargets

/-- Association-list lookup for `moves_from_stack_slot_`. -/
def slotMapFind (m : List (Nat × GapMoveTargets)) (key : Nat) :
    Option GapMoveTargets :=
  match m with
  | [] => none
  | (k, v) :: rest => if key = k then some v else slotMapFind rest key

/-- `moves_from_stack_slot_[key]` update: apply `f` to the mapped value,
default-constructing the entry (appended, as a fresh insertion) when the
key is absent. -/
def slotMapUpdate (m : List (Nat × GapMoveTargets)) (key : Nat)
    (f : GapMoveTargets → GapMoveTargets) : List (Nat × GapMoveTargets) :=
  match m with
  | [] => [(key, f emptyGapMoveTargets)]
  | (k, v) :: rest =>
    if key = k then (k, f v) :: rest else (k, v) :: slotMapUpdate rest key f

/-- `unordered_map::extract`: remove the entry for `key`. -/
def slotMapErase (m : List (Nat × GapMoveTargets)) (key : Nat) :
    List (Nat × GapMoveTargets) :=
  match m with
  | [] => []
  | (k, v) :: rest => if key = k then rest else (k, v) :: slotMapErase rest key

/-- A source operand of `RecordMove`: an `InstructionOperand` that is a
register, a stack slot, or a constant (in which case the C++ passes the
constant node; its value is carried here). -/
inductive MoveSource
  | reg (code : Nat)
  | stack (slot : Nat)
  | constant (value : Int)
deriving DecidableEq

/-- `CheckNoExistingMoveToRegister` (maglev-code-generator.cc:159, DEBUG):
scan all allocatable registers' targets, all stack-slot sources'
targets and the register materializations; `FATAL` on any existing move
into `targetReg`.  Returns `true` when no existing move is found. -/
def CheckNoExistingMoveToRegister (st : ParallelMoveResolverState)
    (targetReg : Nat) : Bool :=
  kAllocatableRegisters.all
    (fun r => !((getRegTargets st r).registers.contains targetReg)) &&
  st.movesFromStackSlot.all
    (fun p => !(p.2.registers.contains targetReg)) &&
  (st.materializingRegisterMoves.getD targetReg none).isNone

/-- `CheckNoExistingMoveToStackSlot` (maglev-code-generator.cc:179, DEBUG):
the same scan for a target stack slot, including the stack-slot
materializations. -/
def CheckNoExistingMoveToStackSlot (st : ParallelMoveResolverState)
    (targetSlot : Nat) : Bool :=
  kAllocatableRegisters.all
    (fun r => !((getRegTargets st r).stackSlots.contains targetSlot)) &&
  st.movesFromStackSlot.all
    (fun p => !(p.2.stackSlots.contains targetSlot)) &&
  st.materializingStackSlotMoves.all (fun p => !(p.1 == targetSlot))

/-- `RecordMoveToRegister` (maglev-code-generator.cc:208).  The debug
check `FATAL`s when another move into `targetReg` was already recorded;
this is modelled as `Except.error`.  A register source equal to the
target records nothing; a register source adds `targetReg` to its
outgoing register set; a stack source adds it to that slot entry; a
constant source records a register materialization. -/
def RecordMoveToRegister (source : MoveSource) (targetReg : Nat)
    (st : ParallelMoveResolverState) :
    Except Unit ParallelMoveResolverState :=
  if !CheckNoExistingMoveToRegister st targetReg then .error ()
  else .ok (
    match source with
    | .reg sourceReg =>
      if targetReg ≠ sourceReg then
        { st with movesFromRegister :=
            (st.movesFromRegister.set sourceReg
              { getRegTargets st sourceReg with
                registers :=
                  regListSet targetReg (getRegTargets st sourceReg).registers }) }
      else st
    | .stack sourceSlot =>
      { st with movesFromStackSlot :=
          (slotMapUpdate st.movesFromStackSlot sourceSlot
            (fun t => { t with registers := regListSet targetReg t.registers })) }
    | .constant c =>
      { st with materializingRegisterMoves :=
          st.materializingRegisterMoves.set targetReg (some c) })

/-- `RecordMoveToStackSlot` (maglev-code-generator.cc:230).  A stack
source equal to the target slot records nothing; a register source
pushes the slot onto its outgoing stack-slot vector; a stack source
pushes it onto that slot entry; a constant source appends a stack-slot
materialization. -/
def RecordMoveToStackSlot (source : MoveSource) (targetSlot : Nat)
    (st : ParallelMoveResolverState) :
    Except Unit ParallelMoveResolverState :=
  if !CheckNoExistingMoveToStackSlot st targetSlot then .error ()
  else .ok (
    match source with
    | .reg sourceReg =>
      { st with movesFromRegister :=
          (st.movesFromRegister.set sourceReg
            { getRegTargets st sourceReg with
              stackSlots :=
                (getRegTargets st sourceReg).stackSlots ++ [targetSlot] }) }
    | .stack sourceSlot =>
      if sourceSlot ≠ targetSlot then
        { st with movesFromStackSlot :=
            (slotMapUpdate st.movesFromStackSlot sourceSlot
              (fun t => { t with stackSlots := t.stackSlots ++ [targetSlot] })) }
      else st
    | .constant c =>
      { st with materializingStackSlotMoves :=
          st.materializingStackSlotMoves ++ [(targetSlot, c)] })

/-- `RecordMove` (maglev-code-generator.cc:97): dispatch on whether the
target `AllocatedOperand` is a register or a stack slot. -/
def RecordMove (source : MoveSource) (target : MoveOrigin)
    (st : ParallelMoveResolverState) :
    Except Unit ParallelMoveResolverState :=
  match target with
  | .reg code => RecordMoveToRegister source code st
  | .stack slot => RecordMoveToStackSlot source slot st

/-! #### Emission -/

/-- A physical location of the emitted instruction stream: an
allocatable register, a stack slot, or the scratch register. -/
inductive MovLoc
  | reg (code : Nat)
  | stack (slot : Nat)
  | scratch
deriving DecidableEq

/-- One emitted machine instruction: a move between locations
(`__ Move` / `EmitStackMove`), a constant materialization into a
location (`node->LoadToRegister`), or a push/pop of the scratch register
(`Push(kScratchRegT)` / `Pop(kScratchRegT)`). -/
inductive Instr
  | mov (dst src : MovLoc)
  | mat (dst : MovLoc) (value : Int)
  | pushScratch
  | popScratch
deriving DecidableEq

def MoveOrigin.toLoc : MoveOrigin → MovLoc
  | .reg code => .reg code
  | .stack slot => .stack slot

/-- `PopTargets(RegisterT)` (maglev-code-generator.cc:255):
`std::exchange` the source register's targets with empty. -/
def PopTargetsReg (code : Nat) (st : ParallelMoveResolverState) :
    GapMoveTargets × ParallelMoveResolverState :=
  (getRegTargets st code,
   { st with movesFromRegister :=
       st.movesFromRegister.set code emptyGapMoveTargets })

/-- `PopTargets(uint32_t)` (maglev-code-generator.cc:259): extract the
map entry, returning empty targets when the key is absent. -/
def PopTargetsStack (slot : Nat) (st : ParallelMoveResolverState) :
    GapMoveTargets × ParallelMoveResolverState :=
  match slotMapFind st.movesFromStackSlot slot with
  | none => (emptyGapMoveTargets, st)
  | some targets =>
    (targets,
     { st with movesFromStackSlot := slotMapErase st.movesFromStackSlot slot })

def PopTargets (source : MoveOrigin) (st : ParallelMoveResolverState) :
    GapMoveTargets × ParallelMoveResolverState :=
  match source with
  | .reg code => PopTargetsReg code st
  | .stack slot => PopTargetsStack slot st

/-- `EmitMovesFromSource(RegisterT, ...)` (maglev-code-generator.cc:344),
also used with the scratch register as source: a plain move to each
target register, then a store to each target stack slot. -/
def EmitMovesFromSourceReg (src : MovLoc) (targets : GapMoveTargets) :
    List Instr :=
  targets.registers.map (fun t => Instr.mov (.reg t) src) ++
  targets.stackSlots.map (fun t => Instr.mov (.stack t) src)

/-- `EmitMovesFromSource(uint32_t, ...)` (maglev-code-generator.cc:358):
a load into each target register; when the scratch register currently
holds a cycle start and there are stack-slot targets, `Push` the scratch
register first; each stack-slot target then goes through the scratch
register (load source slot, store target slot). -/
def EmitMovesFromSourceStack (srcSlot : Nat) (targets : GapMoveTargets)
    (scratchHasCycleStart : Bool) : List Instr :=
  targets.registers.map (fun t => Instr.mov (.reg t) (.stack srcSlot)) ++
  (if scratchHasCycleStart && !targets.stackSlots.isEmpty
   then [Instr.pushScratch] else []) ++
  targets.stackSlots.flatMap
    (fun t => [Instr.mov .scratch (.stack srcSlot),
               Instr.mov (.stack t) .scratch])

def EmitMovesFromSource (source : MoveOrigin) (targets : GapMoveTargets)
    (st : ParallelMoveResolverState) : List Instr :=
  match source with
  | .reg code => EmitMovesFromSourceReg (.reg code) targets
  | .stack slot => EmitMovesFromSourceStack slot targets st.scratchHasCycleStart

/-- Shared shape of the chain-walk results: emitted instructions, the
`has_cycle` flag, and the updated resolver state. -/
def ChainResult := List Instr × Bool × ParallelMoveResolverState

/-- Iterate `ContinueEmitMoveChain` over a target list, accumulating
instructions and or-ing the cycle flags, as the loops of
`RecursivelyEmitMoveChainTargets` do. -/
def emitChainTargetListWith
    (cont : MoveOrigin → ParallelMoveResolverState → ChainResult) :
    List MoveOrigin → ParallelMoveResolverState → ChainResult
  | [], st => ([], false, st)
  | t :: rest, st =>
    let r1 := cont t st
    let r2 := emitChainTargetListWith cont rest r1.2.2
    (r1.1 ++ r2.1, r1.2.1 || r2.2.1, r2.2.2)

/-- `RecursivelyEmitMoveChainTargets` (maglev-code-generator.cc:332):
visit the register targets, then the stack-slot targets. -/
def RecursivelyEmitMoveChainTargets
    (cont : MoveOrigin → ParallelMoveResolverState → ChainResult)
    (targets : GapMoveTargets) (st : ParallelMoveResolverState) : ChainResult :=
  emitChainTargetListWith cont
    (targets.registers.map MoveOrigin.reg ++
     targets.stackSlots.map MoveOrigin.stack) st

/-- `ContinueEmitMoveChain` (maglev-code-generator.cc:299).  When the
recursion returns to the chain start (the C++ compares only when the
static types agree, which the `MoveOrigin` constructors capture), a
cycle is detected: the chain start is saved into the scratch register
(`Move` / `EmitStackMove`), `scratch_has_cycle_start_` is set, and
`true` is returned.  Otherwise the source's targets are popped; an empty
set ends the chain; else the targets are visited recursively and then
the moves out of this source are emitted.  The `fuel` argument bounds
the recursion depth; the C++ recursion terminates because every level
pops edges from the move graph, so any fuel beyond the total number of
recorded moves is enough. -/
def ContinueEmitMoveChain :
    Nat → MoveOrigin → MoveOrigin → ParallelMoveResolverState → ChainResult
  | 0, _, _, st => ([], false, st)
  | fuel + 1, chainStart, source, st =>
    if chainStart = source then
      ([Instr.mov .scratch source.toLoc], true,
       { st with scratchHasCycleStart := true })
    else
      let popped := PopTargets source st
      let targets := popped.1
      let st1 := popped.2
      if targets.isEmptyTargets then ([], false, st1)
      else
        let r := RecursivelyEmitMoveChainTargets
          (ContinueEmitMoveChain fuel chainStart) targets st1
        (r.1 ++ EmitMovesFromSource source targets r.2.2, r.2.1, r.2.2)

/-- `StartEmitMoveChain` (maglev-code-generator.cc:271): pop the chain
source's targets; when a cycle was found during the recursive walk, the
saved cycle start is written to the targets from the scratch register
(popping it from the machine stack first when the flag says the scratch
register no longer holds it), and the flag is cleared; otherwise the
moves out of the source are emitted directly. -/
def StartEmitMoveChain (fuel : Nat) (source : MoveOrigin)
    (st : ParallelMoveResolverState) :
    List Instr × ParallelMoveResolverState :=
  let popped := PopTargets source st
  let targets := popped.1
  let st1 := popped.2
  if targets.isEmptyTargets then ([], st1)
  else
    let r := RecursivelyEmitMoveChainTargets
      (ContinueEmitMoveChain fuel source) targets st1
    let st2 := r.2.2
    if r.2.1 then
      ((r.1 ++ (if st2.scratchHasCycleStart then [] else [Instr.popScratch])) ++
        EmitMovesFromSourceReg .scratch targets,
       { st2 with scratchHasCycleStart := false })
    else
      (r.1 ++ EmitMovesFromSource source targets st2, st2)

/-- The register loop of `EmitMoves` (maglev-code-generator.cc:114): for
each allocatable register, emit the move chain starting at it, then the
materializing move into it when one was recorded. -/
def emitRegisterMovePhase (fuel : Nat) :
    List Nat → ParallelMoveResolverState →
    List Instr × ParallelMoveResolverState
  | [], st => ([], st)
  | r :: rest, st =>
    let c := StartEmitMoveChain fuel (.reg r) st
    let matPart : List Instr :=
      match c.2.materializingRegisterMoves.getD r none with
      | some v => [Instr.mat (.reg r) v]
      | none => []
    let s := emitRegisterMovePhase fuel rest c.2
    (c.1 ++ matPart ++ s.1, s.2)

/-- The stack loop of `EmitMoves` (maglev-code-generator.cc:125): while
the stack-slot move map is non-empty, emit the chain starting at its
first key (each chain pops entries off the map). -/
def emitStackSlotMovePhase :
    Nat → ParallelMoveResolverState → List Instr × ParallelMoveResolverState
  | 0, st => ([], st)
  | fuel + 1, st =>
    match st.movesFromStackSlot with
    | [] => ([], st)
    | entry :: _ =>
      let c := StartEmitMoveChain fuel (.stack entry.1) st
      let s := emitStackSlotMovePhase fuel c.2
      (c.1 ++ s.1, s.2)

/-- The materializing stack-slot loop of `EmitMoves`
(maglev-code-generator.cc:128): each recorded (slot, constant) pair is
materialized through the scratch register
(`LoadToRegister(kScratchRegT)` then `EmitStackMove`). -/
def materializeStackSlotInstrs (ms : List (Nat × Int)) : List Instr :=
  ms.flatMap
    (fun p => [Instr.mat .scratch p.2, Instr.mov (.stack p.1) .scratch])

/-- `EmitMoves` (maglev-code-generator.cc:113): the register loop, then
the stack-slot chain loop, then the materializing stack-slot moves. -/
def EmitMoves (fuel : Nat) (st : ParallelMoveResolverState) :
    List Instr × ParallelMoveResolverState :=
  let p1 := emitRegisterMovePhase fuel kAllocatableRegisters st
  let p2 := emitStackSlotMovePhase fuel p1.2
  (p1.1 ++ p2.1 ++ materializeStackSlotInstrs p2.2.materializingStackSlotMoves,
   p2.2)

/-! #### Machine semantics of the emitted instructions -/

/-- The machine state the emitted sequence acts on: the register file,
the stack-slot frame, the scratch register and the push-down stack used
by `Push`/`Pop` of the scratch register. -/
structure MachineState where
  regs : Nat → Int
  stackSlots : Nat → Int
  scratch : Int
  pushed : List Int

def readLoc (m : MachineState) : MovLoc → Int
  | .reg code => m.regs code
  | .stack slot => m.stackSlots slot
  | .scratch => m.scratch

def writeLoc (m : MachineState) : MovLoc → Int → MachineState
  | .reg code, v =>
    { m with regs := fun c => if c = code then v else m.regs c }
  | .stack slot, v =>
    { m with stackSlots := fun s => if s = slot then v else m.stackSlots s }
  | .scratch, v => { m with scratch := v }

def stepInstr (m : MachineState) : Instr → MachineState
  | .mov dst src => writeLoc m dst (readLoc m src)
  | .mat dst v => writeLoc m dst v
  | .pushScratch => { m with pushed := m.scratch :: m.pushed }
  | .popScratch =>
    match m.pushed with
    | [] => { m with scratch := 0 }
    | v :: rest => { m with scratch := v, pushed := rest }

def runInstrs (m : MachineState) (l : List Instr) : MachineState :=
  l.foldl stepInstr m

/-! #### The move graph of a resolver state -/

/-- The outgoing move edges of one register source. -/
def regSourceEdges (st : ParallelMoveResolverState) (r : Nat) :
    List (MoveOrigin × MoveOrigin) :=
  (getRegTargets st r).registers.map
    (fun t => (MoveOrigin.reg r, MoveOrigin.reg t)) ++
  (getRegTargets st r).stackSlots.map
    (fun t => (MoveOrigin.reg r, MoveOrigin.stack t))

/-- The outgoing move edges of one stack-slot map entry. -/
def slotEntryEdges (p : Nat × GapMoveTargets) :
    List (MoveOrigin × MoveOrigin) :=
  p.2.registers.map (fun t => (MoveOrigin.stack p.1, MoveOrigin.reg t)) ++
  p.2.stackSlots.map (fun t => (MoveOrigin.stack p.1, MoveOrigin.stack t))

/-- The recorded move edges (source, target), read off the resolver
fields exactly as the emission and the debug checks traverse them: the
outgoing edges of every allocatable register, then of every stack-slot
map entry. -/
def moveEdges (st : ParallelMoveResolverState) :
    List (MoveOrigin × MoveOrigin) :=
  kAllocatableRegisters.flatMap (regSourceEdges st) ++
  st.movesFromStackSlot.flatMap slotEntryEdges

/-- The locations already fed by a materializing (constant) move. -/
def materializationTargets (st : ParallelMoveResolverState) :
    List MoveOrigin :=
  (kAllocatableRegisters.filter
    (fun r => !(st.materializingRegisterMoves.getD r none).isNone)).map
      MoveOrigin.reg ++
  st.materializingStackSlotMoves.map (fun p => MoveOrigin.stack p.1)

/-- A location that is already the target of some recorded move
(location-to-location or materializing). -/
def isTargetedLoc (st : ParallelMoveResolverState) (t : MoveOrigin) : Prop :=
  t ∈ (moveEdges st).map Prod.snd ∨ t ∈ materializationTargets st

/-- An edge of the move graph. -/
def MoveEdge (st : ParallelMoveResolverState) (u v : MoveOrigin) : Prop :=
  (u, v) ∈ moveEdges st

/-- The claimed resolver invariant: every location is the target of at
most one recorded location-to-location move (the target column of the
edge list has no duplicates). -/
def targetsUnique (st : ParallelMoveResolverState) : Prop :=
  ((moveEdges st).map Prod.snd).Nodup

/-- Undirected connectivity in the move graph (same connected
component). -/
def MoveConn (st : ParallelMoveResolverState) (u v : MoveOrigin) : Prop :=
  Relation.ReflTransGen
    (fun a b => MoveEdge st a b ∨ MoveEdge st b a) u v

/-- Membership of a location in a directed cycle of the move graph. -/
def OnMoveCycle (st : ParallelMoveResolverState) (u : MoveOrigin) : Prop :=
  Relation.TransGen (MoveEdge st) u u

/-! ### Deoptimization metadata (maglev-code-generator.cc:715-852) -/

/-- The fields of an `EagerDeoptInfo`/`LazyDeoptInfo` consumed by
`GenerateDeoptimizationData`: the checkpoint's bytecode position, the
translation-array index filled in by `EmitDeopts`, and the position at
which `EmitDeopts` bound the deopt entry label (the deopt stub). -/
structure DeoptInfoRecord where
  bytecodePosition : Nat
  translationIndex : Nat
  deoptEntryLabelPos : Nat
deriving DecidableEq

/-- One row of the `DeoptimizationData` table:
`SetBytecodeOffset`, `SetTranslationIndex`, `SetPc`. -/
structure DeoptDataEntry where
  bytecodeOffset : Nat
  translationIndex : Nat
  pc : Nat
deriving DecidableEq

/-- The installed code object's deoptimization data:
`DeoptimizationData::Empty` or a table with the eager and lazy counts
and the per-index entries. -/
inductive DeoptimizationData
  | empty
  | table (eagerDeoptCount lazyDeoptCount : Nat) (entries : List DeoptDataEntry)
deriving DecidableEq

def deoptEntryOf (d : DeoptInfoRecord) : DeoptDataEntry :=
  ⟨d.bytecodePosition, d.translationIndex, d.deoptEntryLabelPos⟩

/-- One population loop of `GenerateDeoptimizationData`
(maglev-code-generator.cc:829): write the entry for each deopt info at
the running index `i` and advance it. -/
def populateDeoptEntries (i : Nat) : List DeoptInfoRecord → List DeoptDataEntry
  | [] => []
  | d :: rest => deoptEntryOf d :: populateDeoptEntries (i + 1) rest

/-- `MaglevCodeGeneratorImpl::GenerateDeoptimizationData`
(maglev-code-generator.cc:767): with no registered deopts the data is
`DeoptimizationData::Empty`; otherwise the table holds the eager and
lazy counts and is populated by one loop over the eager deopt infos
followed by one loop over the lazy deopt infos, sharing the running
index. -/
def GenerateDeoptimizationData (eagerDeopts lazyDeopts : List DeoptInfoRecord) :
    DeoptimizationData :=
  let eagerDeoptCount := eagerDeopts.length
  let lazyDeoptCount := lazyDeopts.length
  if lazyDeoptCount + eagerDeoptCount = 0 then .empty
  else
    .table eagerDeoptCount lazyDeoptCount
      (populateDeoptEntries 0 eagerDeopts ++
       populateDeoptEntries eagerDeopts.length lazyDeopts)

/-! ### Concrete resolver scenarios used by the claims -/

def okOr (e : Except Unit ParallelMoveResolverState) :
    ParallelMoveResolverState :=
  match e with
  | .ok st => st
  | .error _ => initialResolver

/-- The two-element stack-slot permutation cycle: slot 1 → slot 2 and
slot 2 → slot 1 (each slot must receive the other's value). -/
def stackCycleState : ParallelMoveResolverState :=
  okOr (do
    let st1 ← RecordMoveToStackSlot (.stack 1) 2 initialResolver
    RecordMoveToStackSlot (.stack 2) 1 st1)

/-- A machine whose slot 1 holds 10 and slot 2 holds 20. -/
def stackCycleMachine : MachineState :=
  ⟨fun _ => 0, fun s => if s = 1 then 10 else if s = 2 then 20 else 0, 0, []⟩

/-- One materializing move (constant 7 into register 0) next to one
location-to-location move (slot 1 → slot 2). -/
def materializationNextToStackMove : ParallelMoveResolverState :=
  okOr (do
    let st1 ← RecordMoveToRegister (.constant 7) 0 initialResolver
    RecordMoveToStackSlot (.stack 1) 2 st1)

/-- A resolver that already holds a move into register 1
(register 2 → register 1), so register 1 is an occupied target. -/
def regTargetTakenState : ParallelMoveResolverState :=
  okOr (RecordMoveToRegister (.reg 2) 1 initialResolver)

/-- The spec's example: the two-register permutation cycle
register 0 → register 1, register 1 → register 0. -/
def twoRegisterCycleState : ParallelMoveResolverState :=
  okOr (do
    let st1 ← RecordMoveToRegister (.reg 0) 1 initialResolver
    RecordMoveToRegister (.reg 1) 0 st1)

/-- A machine whose register 0 holds 100 and register 1 holds 200. -/
def twoRegisterCycleMachine : MachineState :=
  ⟨fun r => if r = 0 then 100 else if r = 1 then 200 else 0,
   fun _ => 0, 0, []⟩

/-- A chain with a fan-out: register 0 → register 1, register 1 →
register 2, register 1 → stack slot 5. -/
def registerChainState : ParallelMoveResolverState :=
  okOr (do
    let st1 ← RecordMoveToRegister (.reg 0) 1 initialResolver
    let st2 ← RecordMoveToRegister (.reg 1) 2 st1
    RecordMoveToStackSlot (.reg 1) 5 st2)

/-- A machine whose registers 0, 1, 2 hold 100, 200, 300. -/
def registerChainMachine : MachineState :=
  ⟨fun r => if r = 0 then 100 else if r = 1 then 200 else
    if r = 2 then 300 else 0, fun _ => 0, 0, []⟩

/-- Fold a list of recorded moves (source operand, target location)
through `RecordMove` starting from the empty resolver, propagating the
fatal check. -/
def RecordMovesAll (moves : List (MoveSource × MoveOrigin)) :
    Except Unit ParallelMoveResolverState :=
  moves.foldlM (fun st p => RecordMove p.1 p.2 st) initialResolver

/-- A materializing instruction (a constant load emitted by
`LoadToRegister`). -/
def isMaterializingInstr : Instr → Bool
  | .mat _ _ => true
  | _ => false

/-- A materializing load into the scratch register: the first half of a
materializing stack-slot move, which is the only place the emission
loads a constant into the scratch register. -/
def isScratchMatInstr : Instr → Bool
  | .mat .scratch _ => true
  | _ => false

/-! ### Back-deterministic graphs

Abstract form of the comment at maglev-code-generator.cc:280: in a move
graph each target has at most one incoming edge, so each connected
component has at most one cycle.  A relation is back-deterministic when
every node has at most one `r`-predecessor; we show any two on-cycle
vertices of the same (undirected) component lie on a common cycle. -/

section BackDeterministic

variable {α : Type} {r : α → α → Prop}

/-- In a back-deterministic graph, a vertex on a cycle reaches the
predecessor of any vertex it reaches: walking an edge backwards from a
reachable vertex stays reachable, because the incoming edge is unique
and is already part of the forward path (or of the cycle). -/
theorem backdet_reach_of_edge_into_reachable
    (hdet : ∀ a b c, r a c → r b c → a = b) {u v w : α}
    (hcyc : Relation.TransGen r u u) (hw : Relation.ReflTransGen r u w)
    (hvw : r v w) : Relation.ReflTransGen r u v := by
  rcases Relation.ReflTransGen.cases_tail hw with h | ⟨c, huc, hcw⟩
  · subst h
    obtain ⟨t, hut, htu⟩ := Relation.TransGen.tail'_iff.mp hcyc
    have hvt : v = t := hdet v t w hvw htu
    exact hvt ▸ hut
  · have hvc : v = c := hdet v c w hvw hcw
    exact hvc ▸ huc

/-- A vertex on a cycle reaches (directedly) every vertex of its
undirected connected component that it is connected to. -/
theorem backdet_cycle_reaches_component
    (hdet : ∀ a b c, r a c → r b c → a = b) {u v : α}
    (hcyc : Relation.TransGen r u u)
    (hconn : Relation.ReflTransGen (fun a b => r a b ∨ r b a) u v) :
    Relation.ReflTransGen r u v := by
  induction hconn with
  | refl => exact .refl
  | tail _hub hbv ih =>
    rcases hbv with h | h
    · exact ih.tail h
    · exact backdet_reach_of_edge_into_reachable hdet hcyc ih h

/-- Two on-cycle vertices of one undirected component reach each other:
their cycles are the same cycle.  This is the "at most one cycle per
connected component" fact the resolver relies on. -/
theorem backdet_at_most_one_cycle_per_component
    (hdet : ∀ a b c, r a c → r b c → a = b) {u v : α}
    (hu : Relation.TransGen r u u) (hv : Relation.TransGen r v v)
    (hconn : Relation.ReflTransGen (fun a b => r a b ∨ r b a) u v) :
    Relation.ReflTransGen r u v ∧ Relation.ReflTransGen r v u := by
  refine ⟨backdet_cycle_reaches_component hdet hu hconn, ?_⟩
  have hsymm : Symmetric (fun a b : α => r a b ∨ r b a) :=
    fun _ _ h => h.symm
  exact backdet_cycle_reaches_component hdet hv
    (Relation.ReflTransGen.symmetric hsymm hconn)

end BackDeterministic

/-- The move-graph in-degree bound: under `targetsUnique`, two edges
into the same location have the same source. -/
theorem moveEdge_backdet {st : ParallelMoveResolverState}
    (h : targetsUnique st) :
    ∀ a b c, MoveEdge st a c → MoveEdge st b c → a = b := by
  intro a b c hac hbc
  have := List.inj_on_of_nodup_map h hac hbc rfl
  exact congrArg Prod.fst this

/-! ### Claim theorems -/

/-- C6: every node in the graph carries either eager-deopt info or
lazy-deopt info but never both: no concrete node type of maglev-ir.h
declares a `kProperties` with both `can_eager_deopt` and
`can_lazy_deopt` set (the invariant `NodeBase::Allocate` statically
asserts), and the `eager_deopt_info`/`lazy_deopt_info` accessors'
guards are valid exactly for the node types with the corresponding
property. -/
theorem c6_deopt_info_exclusive :
    (nodePropertiesTable.all
      (fun p => !(OpProperties.canEagerDeopt p.2 &&
                  OpProperties.canLazyDeopt p.2)) = true) ∧
    (nodePropertiesTable.all
      (fun p => (eagerDeoptInfoAccessOk p.2 == OpProperties.canEagerDeopt p.2) &&
                (lazyDeoptInfoAccessOk p.2 == OpProperties.canLazyDeopt p.2))
      = true) := by
  constructor <;> decide

/-- C2 (failing input): the Int32 divide fast path emitted under
signed-small feedback zero-extends the dividend (`xorl rdx, rdx`
instead of `cdq`), so for `-4 / 2` it produces 2147483646 with no
deoptimization although the exact result −2 is representable, and for
a zero divisor `idivl` raises a hardware divide-error fault instead of
deoptimizing. -/
theorem c2_int32_divide_wrong_result_or_fault :
    Int32DivideWithOverflow_GenerateCode (-4) 2 = .value 2147483646 ∧
    (-4 : Int) = 2 * (-2) ∧ isInt32 (-2) = true ∧
    (2147483646 : Int) ≠ -2 ∧
    Int32DivideWithOverflow_GenerateCode 1 0 = .machineFault := by
  refine ⟨by decide, by decide, by decide, by decide, by decide⟩

/-- C3: a call bytecode whose processed feedback is insufficient makes
the builder emit exactly one unconditional-deopt node and nothing else
for that bytecode, and the compilation continues normally — the outcome
is neither a bail-out nor fatal.  (`EmitUnconditionalDeopt` is modelled
from the spec; its body lives in maglev-graph-builder.h, outside the
given sources.) -/
theorem c3_insufficient_call_feedback_emits_deopt :
    ∀ maglevInlining : Bool,
      BuildCallFromRegistersOutcome maglevInlining .insufficient =
        ⟨[.deoptNode .insufficientTypeFeedbackForCall], .ok⟩ ∧
      (BuildCallFromRegistersOutcome maglevInlining .insufficient).status ≠
        .bailout ∧
      (BuildCallFromRegistersOutcome maglevInlining .insufficient).status ≠
        .fatal := by
  intro maglevInlining
  refine ⟨rfl, ?_, ?_⟩ <;>
    simp [BuildCallFromRegistersOutcome, BuildCallFromRegisters,
      EmitUnconditionalDeopt]

/-- C4 (counterexample): there are no callee-size or inlining-depth
bounds: for any candidate pair of bounds, a call whose feedback names a
fixed `JSFunction` target with a feedback vector is inlined even when
the target exceeds both bounds, rather than compiled as a generic call
node. -/
theorem c4_counterexample_no_inlining_threshold :
    ¬ ∃ sizeBound depthBound : Nat,
        ∀ t : JSFunctionData,
          (t.bytecodeLength > sizeBound ∨
           t.callSiteInliningDepth > depthBound) →
          BuildCallFromRegisters true
            (.call .target (some ⟨true, t⟩)) = .genericCall := by
  rintro ⟨sizeBound, depthBound, h⟩
  have h2 := h ⟨true, sizeBound + 1, depthBound + 1⟩
    (Or.inl (Nat.lt_succ_self sizeBound))
  simp [BuildCallFromRegisters] at h2

/-- C4 (amended): the builder inlines a call exactly when the
`maglev_inlining` flag is on and the call feedback is a `kCall` whose
content names a fixed target that is a `JSFunction` with a feedback
vector; no size or depth threshold is consulted, and in every other
non-insufficient case a generic call node is emitted. -/
theorem c4_inlining_exactly_on_fixed_target :
    ∀ (maglevInlining : Bool) (feedback : ProcessedCallFeedback),
      BuildCallFromRegisters maglevInlining feedback = .inlineCall ↔
        maglevInlining = true ∧
        ∃ t : HeapObjectTarget,
          feedback = .call .target (some t) ∧
          t.isJSFunction = true ∧
          t.asJSFunction.hasFeedbackVector = true := by
  intro maglevInlining feedback
  cases feedback with
  | insufficient => simp [BuildCallFromRegisters]
  | otherKind => simp [BuildCallFromRegisters]
  | call content callTarget =>
    cases maglevInlining with
    | false => simp [BuildCallFromRegisters]
    | true =>
      cases content with
      | receiver => simp [BuildCallFromRegisters]
      | target =>
        cases callTarget with
        | none => simp [BuildCallFromRegisters]
        | some t =>
          by_cases hjs : t.isJSFunction = true <;>
            by_cases hfv : t.asJSFunction.hasFeedbackVector = true <;>
            simp [BuildCallFromRegisters, hjs, hfv]

/-- C5 (counterexample): with "signed small integer" feedback — present
and sufficient — the unary negate bytecode still emits the fully
generic node, while the binary add bytecode with the same feedback
takes the int32 fast path: the unary visitor never consults feedback. -/
theorem c5_counterexample_unary_ignores_feedback :
    VisitUnaryOperation .negate .kSignedSmall = .genericNode .negate ∧
    BinaryOperationHint.kSignedSmall ≠ .kNone ∧
    VisitBinaryOperation .add .kSignedSmall = .int32Node .add := by
  refine ⟨rfl, by decide, rfl⟩

/-- C5 (amended): for every unary operation bytecode (negate,
increment, decrement, bitwise-not) the builder of this version ignores
the runtime type feedback and always emits the fully generic
polymorphic node — the feedback-guided int32/float64 fast paths are a
TODO in the source. -/
theorem c5_unary_always_generic :
    ∀ (op : Operation) (hint : BinaryOperationHint),
      VisitUnaryOperation op hint = .genericNode op :=
  fun _ _ => rfl

/-- Both population loops write one entry per deopt info, in order. -/
theorem populateDeoptEntries_eq_map :
    ∀ (i : Nat) (l : List DeoptInfoRecord),
      populateDeoptEntries i l = l.map deoptEntryOf := by
  intro i l
  induction l generalizing i with
  | nil => rfl
  | cons d rest ih => simp [populateDeoptEntries, ih]

/-- C8: the deoptimization data holds exactly one entry per eager-deopt
info followed by one entry per lazy-deopt info, both groups in
registration order, each entry recording the deopt's bytecode offset,
translation index and deopt-entry-stub position; with no registered
deopt infos the data is empty. -/
theorem c8_deoptimization_data_layout :
    ∀ eagerDeopts lazyDeopts : List DeoptInfoRecord,
      GenerateDeoptimizationData eagerDeopts lazyDeopts =
        if eagerDeopts.length + lazyDeopts.length = 0 then .empty
        else .table eagerDeopts.length lazyDeopts.length
          (eagerDeopts.map deoptEntryOf ++ lazyDeopts.map deoptEntryOf) := by
  intro eagerDeopts lazyDeopts
  simp only [GenerateDeoptimizationData, populateDeoptEntries_eq_map,
    Nat.add_comm lazyDeopts.length eagerDeopts.length]

/-- C10: recording a move whose source equals its target (same
register, or same stack slot) leaves the resolver state unchanged —
no edge is added, so `EmitMoves` emits nothing for it and the location
keeps its value. -/
theorem c10_self_moves_are_dropped :
    ∀ (st : ParallelMoveResolverState) (r s : Nat),
      (CheckNoExistingMoveToRegister st r = true →
        RecordMoveToRegister (.reg r) r st = .ok st) ∧
      (CheckNoExistingMoveToStackSlot st s = true →
        RecordMoveToStackSlot (.stack s) s st = .ok st) := by
  intro st r s
  constructor
  · intro h; simp [RecordMoveToRegister, h]
  · intro h; simp [RecordMoveToStackSlot, h]

/-- C10 witness: a concrete self-move into register 3 and into stack
slot 4 of the empty resolver is dropped. -/
theorem c10_self_moves_are_dropped_witness :
    RecordMoveToRegister (.reg 3) 3 initialResolver = .ok initialResolver ∧
    RecordMoveToStackSlot (.stack 4) 4 initialResolver = .ok initialResolver :=
  ⟨(c10_self_moves_are_dropped initialResolver 3 4).1 (by decide),
   (c10_self_moves_are_dropped initialResolver 3 4).2 (by decide)⟩

/-- C1 (failing input): for the recorded two-slot permutation cycle
(slot 1 → slot 2, slot 2 → slot 1) with slot 1 = 10 and slot 2 = 20,
the sequence emitted by `EmitMoves` leaves slot 2 holding 20 — its own
old value instead of slot 1's value 10 — because the cycle start saved
in the scratch register is clobbered by the stack-to-stack move and the
matching `Pop` never runs (the push also leaks one machine-stack
slot). -/
theorem c1_stack_cycle_not_resolved :
    (runInstrs stackCycleMachine (EmitMoves 32 stackCycleState).1).stackSlots 2
      = 20 ∧
    (runInstrs stackCycleMachine (EmitMoves 32 stackCycleState).1).stackSlots 1
      = 20 ∧
    stackCycleMachine.stackSlots 1 = 10 ∧
    stackCycleMachine.stackSlots 2 = 20 ∧
    (runInstrs stackCycleMachine (EmitMoves 32 stackCycleState).1).pushed
      = [10] := by
  refine ⟨by decide, by decide, by decide, by decide, by decide⟩

/-- C7 (counterexample): with a materializing move (constant 7 into
register 0) and a location-to-location move (slot 1 → slot 2) recorded,
the emitted sequence places the materializing move first, before the
stack move's instructions — materializing register moves are emitted
during the register scan, not after all location-to-location moves. -/
theorem c7_counterexample_register_materialization_first :
    (EmitMoves 32 materializationNextToStackMove).1 =
      [Instr.mat (.reg 0) 7, Instr.mov .scratch (.stack 1),
       Instr.mov (.stack 2) .scratch] ∧
    isMaterializingInstr (Instr.mat (.reg 0) 7) = true ∧
    ((EmitMoves 32 materializationNextToStackMove).1.drop 1).all
      (fun i => !isMaterializingInstr i) = true := by
  refine ⟨by decide, rfl, by decide⟩

/-- The invariant carried through the chain walks: no materializing
instruction is emitted and the two materialization tables are
untouched. -/
def ChainWalkOk (st : ParallelMoveResolverState) (out : ChainResult) : Prop :=
  (∀ i ∈ out.1, isMaterializingInstr i = false) ∧
  out.2.2.materializingRegisterMoves = st.materializingRegisterMoves ∧
  out.2.2.materializingStackSlotMoves = st.materializingStackSlotMoves

theorem emitMovesFromSourceReg_no_mat (src : MovLoc)
    (targets : GapMoveTargets) :
    ∀ i ∈ EmitMovesFromSourceReg src targets,
      isMaterializingInstr i = false := by
  intro i hi
  simp only [EmitMovesFromSourceReg, List.mem_append, List.mem_map] at hi
  rcases hi with ⟨t, _, rfl⟩ | ⟨t, _, rfl⟩ <;> rfl

theorem emitMovesFromSourceStack_no_mat (srcSlot : Nat)
    (targets : GapMoveTargets) (flag : Bool) :
    ∀ i ∈ EmitMovesFromSourceStack srcSlot targets flag,
      isMaterializingInstr i = false := by
  intro i hi
  simp only [EmitMovesFromSourceStack, List.mem_append, List.mem_map,
    List.mem_flatMap] at hi
  rcases hi with (⟨t, _, rfl⟩ | hif) | ⟨t, _, hpair⟩
  · rfl
  · rcases Bool.eq_false_or_eq_true (flag && !targets.stackSlots.isEmpty) with
      hb | hb <;> simp [hb] at hif
    subst hif; rfl
  · simp only [List.mem_cons, List.mem_singleton] at hpair
    rcases hpair with rfl | rfl | h
    · rfl
    · rfl
    · exact absurd h (List.not_mem_nil i)

theorem emitMovesFromSource_no_mat (source : MoveOrigin)
    (targets : GapMoveTargets) (st : ParallelMoveResolverState) :
    ∀ i ∈ EmitMovesFromSource source targets st,
      isMaterializingInstr i = false := by
  cases source with
  | reg code => exact emitMovesFromSourceReg_no_mat _ _
  | stack slot => exact emitMovesFromSourceStack_no_mat _ _ _

theorem popTargets_preserves_mats (source : MoveOrigin)
    (st : ParallelMoveResolverState) :
    (PopTargets source st).2.materializingRegisterMoves =
      st.materializingRegisterMoves ∧
    (PopTargets source st).2.materializingStackSlotMoves =
      st.materializingStackSlotMoves := by
  cases source with
  | reg code => exact ⟨rfl, rfl⟩
  | stack slot =>
    simp only [PopTargets, PopTargetsStack]
    split <;> exact ⟨rfl, rfl⟩

theorem emitChainTargetListWith_ok
    (cont : MoveOrigin → ParallelMoveResolverState → ChainResult)
    (hc : ∀ t st, ChainWalkOk st (cont t st)) :
    ∀ (l : List MoveOrigin) (st : ParallelMoveResolverState),
      ChainWalkOk st (emitChainTargetListWith cont l st) := by
  intro l
  induction l with
  | nil =>
    intro st
    exact ⟨fun i hi => absurd hi (by simp [emitChainTargetListWith]), rfl, rfl⟩
  | cons t rest ih =>
    intro st
    obtain ⟨h1, h2, h3⟩ := hc t st
    obtain ⟨g1, g2, g3⟩ := ih (cont t st).2.2
    refine ⟨?_, ?_, ?_⟩
    · intro i hi
      simp only [emitChainTargetListWith, List.mem_append] at hi
      rcases hi with hi | hi
      · exact h1 i hi
      · exact g1 i hi
    · show (emitChainTargetListWith cont (t :: rest) st).2.2.materializingRegisterMoves = _
      simp only [emitChainTargetListWith]
      exact g2.trans h2
    · simp only [emitChainTargetListWith]
      exact g3.trans h3

theorem continueEmitMoveChain_ok :
    ∀ (fuel : Nat) (chainStart source : MoveOrigin)
      (st : ParallelMoveResolverState),
      ChainWalkOk st (ContinueEmitMoveChain fuel chainStart source st) := by
  intro fuel
  induction fuel with
  | zero =>
    intro chainStart source st
    exact ⟨fun i hi => absurd hi (by simp [ContinueEmitMoveChain]), rfl, rfl⟩
  | succ f ih =>
    intro chainStart source st
    simp only [ContinueEmitMoveChain]
    split
    · exact ⟨by intro i hi; simp only [List.mem_singleton] at hi; subst hi; rfl,
        rfl, rfl⟩
    · obtain ⟨p1, p2⟩ := popTargets_preserves_mats source st
      split
      · exact ⟨fun i hi => absurd hi (List.not_mem_nil i), p1, p2⟩
      · obtain ⟨r1, r2, r3⟩ :=
          emitChainTargetListWith_ok (ContinueEmitMoveChain f chainStart)
            (ih chainStart) _ (PopTargets source st).2
        refine ⟨?_, r2.trans p1, r3.trans p2⟩
        intro i hi
        simp only [List.mem_append] at hi
        rcases hi with hi | hi
        · exact r1 i hi
        · exact emitMovesFromSource_no_mat _ _ _ i hi

theorem startEmitMoveChain_ok (fuel : Nat) (source : MoveOrigin)
    (st : ParallelMoveResolverState) :
    (∀ i ∈ (StartEmitMoveChain fuel source st).1,
      isMaterializingInstr i = false) ∧
    (StartEmitMoveChain fuel source st).2.materializingRegisterMoves =
      st.materializingRegisterMoves ∧
    (StartEmitMoveChain fuel source st).2.materializingStackSlotMoves =
      st.materializingStackSlotMoves := by
  obtain ⟨p1, p2⟩ := popTargets_preserves_mats source st
  simp only [StartEmitMoveChain]
  split
  · exact ⟨fun i hi => absurd hi (List.not_mem_nil i), p1, p2⟩
  · obtain ⟨r1, r2, r3⟩ :=
      emitChainTargetListWith_ok _ (continueEmitMoveChain_ok fuel source) _
        (PopTargets source st).2
    split
    · refine ⟨?_, r2.trans p1, r3.trans p2⟩
      intro i hi
      simp only [List.mem_append] at hi
      rcases hi with (hi | hi) | hi
      · exact r1 i hi
      · split at hi
        · exact absurd hi (List.not_mem_nil i)
        · simp only [List.mem_singleton] at hi; subst hi; rfl
      · exact emitMovesFromSourceReg_no_mat _ _ i hi
    · refine ⟨?_, r2.trans p1, r3.trans p2⟩
      intro i hi
      simp only [List.mem_append] at hi
      rcases hi with hi | hi
      · exact r1 i hi
      · exact emitMovesFromSource_no_mat _ _ _ i hi

theorem emitRegisterMovePhase_ok (fuel : Nat) :
    ∀ (regs : List Nat) (st : ParallelMoveResolverState),
      (∀ i ∈ (emitRegisterMovePhase fuel regs st).1,
        isScratchMatInstr i = false) ∧
      (emitRegisterMovePhase fuel regs st).2.materializingRegisterMoves =
        st.materializingRegisterMoves ∧
      (emitRegisterMovePhase fuel regs st).2.materializingStackSlotMoves =
        st.materializingStackSlotMoves := by
  intro regs
  induction regs with
  | nil =>
    intro st
    exact ⟨fun i hi => absurd hi (by simp [emitRegisterMovePhase]), rfl, rfl⟩
  | cons r rest ih =>
    intro st
    obtain ⟨h1, h2, h3⟩ := startEmitMoveChain_ok fuel (.reg r) st
    obtain ⟨g1, g2, g3⟩ := ih (StartEmitMoveChain fuel (.reg r) st).2
    refine ⟨?_, ?_, ?_⟩
    · intro i hi
      simp only [emitRegisterMovePhase, List.mem_append] at hi
      rcases hi with (hi | hi) | hi
      · have := h1 i hi
        cases i <;> simp_all [isMaterializingInstr, isScratchMatInstr]
      · split at hi
        · simp only [List.mem_singleton] at hi; subst hi; rfl
        · exact absurd hi (List.not_mem_nil i)
      · exact g1 i hi
    · simp only [emitRegisterMovePhase]
      exact g2.trans h2
    · simp only [emitRegisterMovePhase]
      exact g3.trans h3

theorem emitStackSlotMovePhase_ok :
    ∀ (fuel : Nat) (st : ParallelMoveResolverState),
      (∀ i ∈ (emitStackSlotMovePhase fuel st).1,
        isMaterializingInstr i = false) ∧
      (emitStackSlotMovePhase fuel st).2.materializingRegisterMoves =
        st.materializingRegisterMoves ∧
      (emitStackSlotMovePhase fuel st).2.materializingStackSlotMoves =
        st.materializingStackSlotMoves := by
  intro fuel
  induction fuel with
  | zero =>
    intro st
    exact ⟨fun i hi => absurd hi (by simp [emitStackSlotMovePhase]), rfl, rfl⟩
  | succ f ih =>
    intro st
    simp only [emitStackSlotMovePhase]
    split
    · exact ⟨fun i hi => absurd hi (List.not_mem_nil i), rfl, rfl⟩
    · rename_i scrut entry tail heq
      obtain ⟨h1, h2, h3⟩ := startEmitMoveChain_ok f (.stack entry.1) st
      obtain ⟨g1, g2, g3⟩ := ih (StartEmitMoveChain f (.stack entry.1) st).2
      refine ⟨?_, g2.trans h2, g3.trans h3⟩
      intro i hi
      simp only [List.mem_append] at hi
      rcases hi with hi | hi
      · exact h1 i hi
      · exact g1 i hi

/-- C7 (amended): the emitted sequence of one parallel-move set is a
gap-move part followed by all the materializing stack-slot moves: every
materializing stack-slot move comes after every location-to-location
move, while materializing register moves are emitted inside the
register scan (right after the chain rooted at their target register)
and may precede the location-to-location moves of later chains. -/
theorem c7_stack_materializations_emitted_last :
    ∀ (fuel : Nat) (st : ParallelMoveResolverState),
      ∃ gapPart : List Instr,
        (EmitMoves fuel st).1 =
          gapPart ++
            materializeStackSlotInstrs st.materializingStackSlotMoves ∧
        gapPart.all (fun i => !isScratchMatInstr i) = true := by
  intro fuel st
  obtain ⟨h1, _h2, h3⟩ :=
    emitRegisterMovePhase_ok fuel kAllocatableRegisters st
  obtain ⟨g1, _g2, g3⟩ := emitStackSlotMovePhase_ok fuel
    (emitRegisterMovePhase fuel kAllocatableRegisters st).2
  refine ⟨(emitRegisterMovePhase fuel kAllocatableRegisters st).1 ++
    (emitStackSlotMovePhase fuel
      (emitRegisterMovePhase fuel kAllocatableRegisters st).2).1, ?_, ?_⟩
  · simp only [EmitMoves, List.append_assoc]
    rw [g3.trans h3]
  · rw [List.all_eq_true]
    intro i hi
    simp only [List.mem_append] at hi
    rcases hi with hi | hi
    · simp [h1 i hi]
    · have := g1 i hi
      cases i <;> simp_all [isMaterializingInstr, isScratchMatInstr]

/-- C9 (counterexample): the claimed sufficiency of a single scratch
save fails on the code: the two-slot cycle satisfies the
one-move-per-target invariant, yet after the emitted sequence slot 2
holds its own old value 20 instead of slot 1's value 10 — the single
save of the chain start into the scratch register did not break the
cycle correctly. -/
theorem c9_counterexample_scratch_save_insufficient :
    targetsUnique stackCycleState ∧
    (runInstrs stackCycleMachine (EmitMoves 32 stackCycleState).1).stackSlots 2
      = 20 ∧
    stackCycleMachine.stackSlots 1 = 10 := by
  refine ⟨?_, by decide, by decide⟩
  unfold targetsUnique
  decide

/-- Sanity check against the spec's example: the two-register cycle
resolves to exactly 3 moves, one through the scratch register, and
leaves the two registers swapped. -/
theorem two_register_cycle_resolves_correctly :
    (EmitMoves 32 twoRegisterCycleState).1 =
      [Instr.mov .scratch (.reg 0), Instr.mov (.reg 0) (.reg 1),
       Instr.mov (.reg 1) .scratch] ∧
    (runInstrs twoRegisterCycleMachine
      (EmitMoves 32 twoRegisterCycleState).1).regs 0 = 200 ∧
    (runInstrs twoRegisterCycleMachine
      (EmitMoves 32 twoRegisterCycleState).1).regs 1 = 100 := by
  refine ⟨by decide, by decide, by decide⟩

/-- Sanity check: a register chain with a fan-out emits the moves out of
register 1 before overwriting register 1, so every target receives its
source's original value. -/
theorem register_chain_resolves_correctly :
    (runInstrs registerChainMachine
      (EmitMoves 32 registerChainState).1).regs 1 = 100 ∧
    (runInstrs registerChainMachine
      (EmitMoves 32 registerChainState).1).regs 2 = 200 ∧
    (runInstrs registerChainMachine
      (EmitMoves 32 registerChainState).1).stackSlots 5 = 200 := by
  refine ⟨by decide, by decide, by decide⟩

theorem list_contains_false_iff (l : List Nat) (a : Nat) :
    (l.contains a = false) ↔ a ∉ l := by
  rw [← Bool.not_eq_true]
  simp

theorem mem_moveEdges_snd_reg (st : ParallelMoveResolverState) (tgt : Nat) :
    MoveOrigin.reg tgt ∈ (moveEdges st).map Prod.snd ↔
      ((∃ r ∈ kAllocatableRegisters, tgt ∈ (getRegTargets st r).registers) ∨
       (∃ p ∈ st.movesFromStackSlot, tgt ∈ p.2.registers)) := by
  simp only [moveEdges, regSourceEdges, slotEntryEdges, List.mem_map,
    List.mem_append, List.mem_flatMap]
  aesop

theorem mem_moveEdges_snd_stack (st : ParallelMoveResolverState) (s : Nat) :
    MoveOrigin.stack s ∈ (moveEdges st).map Prod.snd ↔
      ((∃ r ∈ kAllocatableRegisters, s ∈ (getRegTargets st r).stackSlots) ∨
       (∃ p ∈ st.movesFromStackSlot, s ∈ p.2.stackSlots)) := by
  simp only [moveEdges, regSourceEdges, slotEntryEdges, List.mem_map,
    List.mem_append, List.mem_flatMap]
  aesop

theorem mem_matTargets_reg (st : ParallelMoveResolverState) (tgt : Nat)
    (h : tgt < kNumRegisters) :
    MoveOrigin.reg tgt ∈ materializationTargets st ↔
      (st.materializingRegisterMoves.getD tgt none).isNone = false := by
  simp only [materializationTargets, List.mem_append, List.mem_map,
    List.mem_filter, kAllocatableRegisters, List.mem_range]
  constructor
  · rintro (⟨r, ⟨hr, hsome⟩, heq⟩ | ⟨p, hp, heq⟩)
    · injection heq with h2
      subst h2
      simpa using hsome
    · exact absurd heq (by simp)
  · intro h2
    exact Or.inl ⟨tgt, ⟨h, by simpa using h2⟩, rfl⟩

theorem mem_matTargets_stack (st : ParallelMoveResolverState) (s : Nat) :
    MoveOrigin.stack s ∈ materializationTargets st ↔
      ∃ p ∈ st.materializingStackSlotMoves, p.1 = s := by
  simp only [materializationTargets, List.mem_append, List.mem_map,
    List.mem_filter]
  aesop

theorem checkNoExistingMoveToRegister_true_iff
    (st : ParallelMoveResolverState) (tgt : Nat) :
    CheckNoExistingMoveToRegister st tgt = true ↔
      ((∀ r ∈ kAllocatableRegisters, tgt ∉ (getRegTargets st r).registers) ∧
       (∀ p ∈ st.movesFromStackSlot, tgt ∉ p.2.registers) ∧
       (st.materializingRegisterMoves.getD tgt none).isNone = true) := by
  simp only [CheckNoExistingMoveToRegister, Bool.and_eq_true,
    List.all_eq_true, Bool.not_eq_true', list_contains_false_iff, and_assoc]

theorem checkNoExistingMoveToRegister_false_iff
    (st : ParallelMoveResolverState) (tgt : Nat) (h : tgt < kNumRegisters) :
    CheckNoExistingMoveToRegister st tgt = false ↔
      isTargetedLoc st (MoveOrigin.reg tgt) := by
  rw [isTargetedLoc, mem_moveEdges_snd_reg, mem_matTargets_reg st tgt h,
    ← Bool.not_eq_true, checkNoExistingMoveToRegister_true_iff]
  constructor
  · intro hn
    by_contra hcon
    push_neg at hcon
    obtain ⟨⟨hc1, hc2⟩, hc3⟩ := hcon
    refine hn ⟨?_, ?_, ?_⟩
    · intro r hr hmem
      exact hc1 r hr hmem
    · intro p hp hmem
      exact hc2 p hp hmem
    · revert hc3
      cases (st.materializingRegisterMoves.getD tgt none).isNone <;> simp
  · rintro ((⟨r, hr, hmem⟩ | ⟨p, hp, hmem⟩) | hmat) ⟨h1, h2, h3⟩
    · exact h1 r hr hmem
    · exact h2 p hp hmem
    · rw [h3] at hmat
      exact absurd hmat (by simp)

theorem checkNoExistingMoveToStackSlot_true_iff
    (st : ParallelMoveResolverState) (tgt : Nat) :
    CheckNoExistingMoveToStackSlot st tgt = true ↔
      ((∀ r ∈ kAllocatableRegisters, tgt ∉ (getRegTargets st r).stackSlots) ∧
       (∀ p ∈ st.movesFromStackSlot, tgt ∉ p.2.stackSlots) ∧
       (∀ p ∈ st.materializingStackSlotMoves, ¬(p.1 = tgt))) := by
  simp only [CheckNoExistingMoveToStackSlot, Bool.and_eq_true,
    List.all_eq_true, Bool.not_eq_true', list_contains_false_iff,
    beq_eq_false_iff_ne, ne_eq, and_assoc]

theorem checkNoExistingMoveToStackSlot_false_iff
    (st : ParallelMoveResolverState) (tgt : Nat) :
    CheckNoExistingMoveToStackSlot st tgt = false ↔
      isTargetedLoc st (MoveOrigin.stack tgt) := by
  rw [isTargetedLoc, mem_moveEdges_snd_stack, mem_matTargets_stack,
    ← Bool.not_eq_true, checkNoExistingMoveToStackSlot_true_iff]
  constructor
  · intro hn
    by_contra hcon
    push_neg at hcon
    obtain ⟨⟨hc1, hc2⟩, hc3⟩ := hcon
    refine hn ⟨?_, ?_, ?_⟩
    · intro r hr hmem
      exact hc1 r hr hmem
    · intro p hp hmem
      exact hc2 p hp hmem
    · intro p hp hpeq
      exact hc3 p hp hpeq
  · rintro ((⟨r, hr, hmem⟩ | ⟨p, hp, hmem⟩) | ⟨p, hp, hpeq⟩) ⟨h1, h2, h3⟩
    · exact h1 r hr hmem
    · exact h2 p hp hmem
    · exact h3 p hp hpeq

theorem recordMoveToRegister_error_iff (source : MoveSource) (tgt : Nat)
    (st : ParallelMoveResolverState) (h : tgt < kNumRegisters) :
    RecordMoveToRegister source tgt st = .error () ↔
      isTargetedLoc st (MoveOrigin.reg tgt) := by
  rw [← checkNoExistingMoveToRegister_false_iff st tgt h]
  unfold RecordMoveToRegister
  cases hc : CheckNoExistingMoveToRegister st tgt <;> simp

theorem recordMoveToStackSlot_error_iff (source : MoveSource) (tgt : Nat)
    (st : ParallelMoveResolverState) :
    RecordMoveToStackSlot source tgt st = .error () ↔
      isTargetedLoc st (MoveOrigin.stack tgt) := by
  rw [← checkNoExistingMoveToStackSlot_false_iff st tgt]
  unfold RecordMoveToStackSlot
  cases hc : CheckNoExistingMoveToStackSlot st tgt <;> simp

/-! #### Preservation of the one-move-per-target invariant

Every successful (check-passing) recording either leaves the move graph
unchanged or inserts one edge whose target was not previously targeted,
so `targetsUnique` is an invariant of all states built by recording. -/

theorem flatMap_congr_on {β γ : Type} {f g : β → List γ} :
    ∀ {l : List β}, (∀ x ∈ l, f x = g x) → l.flatMap f = l.flatMap g := by
  intro l
  induction l with
  | nil => intro _; rfl
  | cons x t ih =>
    intro h
    simp only [List.flatMap_cons, h x (List.mem_cons_self x t),
      ih (fun y hy => h y (List.mem_cons_of_mem x hy))]

theorem flatMap_perm_insert {γ : Type} {f1 f2 : Nat → List γ}
    {i : Nat} {v : γ} (hi : (f2 i).Perm (v :: f1 i)) :
    ∀ {l : List Nat}, l.Nodup → i ∈ l →
      (∀ x ∈ l, x ≠ i → f2 x = f1 x) →
      (l.flatMap f2).Perm (v :: l.flatMap f1) := by
  intro l
  induction l with
  | nil => intro _ hmem; exact absurd hmem (List.not_mem_nil i)
  | cons x t ih =>
    intro hnd hmem hne
    rcases List.mem_cons.mp hmem with hx | hx
    · have ht : t.flatMap f2 = t.flatMap f1 :=
        flatMap_congr_on (fun y hy =>
          hne y (List.mem_cons_of_mem x hy)
            (fun hyi => (List.nodup_cons.mp hnd).1 (hx ▸ hyi ▸ hy)))
      simp only [List.flatMap_cons, ht, ← hx]
      exact hi.append_right _
    · have hxne : x ≠ i := fun hxi => (List.nodup_cons.mp hnd).1 (hxi ▸ hx)
      have hrest := ih (List.nodup_cons.mp hnd).2 hx
        (fun y hy => hne y (List.mem_cons_of_mem x hy))
      simp only [List.flatMap_cons, hne x (List.mem_cons_self x t) hxne]
      exact (hrest.append_left (f1 x)).trans List.perm_middle

theorem regListSet_perm {a : Nat} :
    ∀ {l : List Nat}, a ∉ l → (regListSet a l).Perm (a :: l) := by
  intro l
  induction l with
  | nil => intro _; exact List.Perm.refl _
  | cons c t ih =>
    intro hmem
    simp only [regListSet]
    rcases Nat.lt_trichotomy a c with h | h | h
    · rw [if_pos h]
    · exact absurd (h ▸ List.mem_cons_self c t) hmem
    · rw [if_neg (Nat.lt_asymm h), if_neg (Nat.ne_of_gt h)]
      exact ((ih (fun hm => hmem (List.mem_cons_of_mem c hm))).cons c).trans
        (List.Perm.swap a c t)

theorem getD_set_ne {α : Type} (l : List α) {i j : Nat} (v d : α)
    (h : j ≠ i) : (l.set i v).getD j d = l.getD j d := by
  simp [List.getD_eq_getElem?_getD, List.getElem?_set_ne (fun hh => h hh.symm)]

theorem getD_set_self {α : Type} (l : List α) {i : Nat} (v d : α)
    (h : i < l.length) : (l.set i v).getD i d = v := by
  simp [List.getD_eq_getElem?_getD, List.getElem?_set_self, h]

theorem moveEdges_congr {st st2 : ParallelMoveResolverState}
    (h1 : st2.movesFromRegister = st.movesFromRegister)
    (h2 : st2.movesFromStackSlot = st.movesFromStackSlot) :
    moveEdges st2 = moveEdges st := by
  unfold moveEdges
  rw [h2]
  congr 1
  exact flatMap_congr_on
    (fun r _ => by simp only [regSourceEdges, getRegTargets, h1])

theorem slotEntryEdges_insert_reg_perm {key tgt : Nat} {gt : GapMoveTargets}
    (h : tgt ∉ gt.registers) :
    (slotEntryEdges
      (key, { gt with registers := regListSet tgt gt.registers })).Perm
      ((MoveOrigin.stack key, MoveOrigin.reg tgt) :: slotEntryEdges (key, gt)) := by
  simp only [slotEntryEdges]
  exact ((regListSet_perm h).map
    (fun t => (MoveOrigin.stack key, MoveOrigin.reg t))).append_right _

theorem slotEntryEdges_append_slot_perm {key tgt : Nat} {gt : GapMoveTargets} :
    (slotEntryEdges
      (key, { gt with stackSlots := gt.stackSlots ++ [tgt] })).Perm
      ((MoveOrigin.stack key, MoveOrigin.stack tgt) ::
        slotEntryEdges (key, gt)) := by
  simp only [slotEntryEdges, List.map_append, List.map_cons, List.map_nil,
    ← List.append_assoc]
  exact (List.perm_append_singleton _ _).trans (List.Perm.refl _)

theorem regSourceEdges_insert_reg_perm {srcReg tgt : Nat}
    {st2 st : ParallelMoveResolverState}
    (h2 : getRegTargets st2 srcReg =
      { getRegTargets st srcReg with
        registers := regListSet tgt (getRegTargets st srcReg).registers })
    (h : tgt ∉ (getRegTargets st srcReg).registers) :
    (regSourceEdges st2 srcReg).Perm
      ((MoveOrigin.reg srcReg, MoveOrigin.reg tgt) ::
        regSourceEdges st srcReg) := by
  simp only [regSourceEdges, h2]
  exact ((regListSet_perm h).map
    (fun t => (MoveOrigin.reg srcReg, MoveOrigin.reg t))).append_right _

theorem regSourceEdges_append_slot_perm {srcReg tgt : Nat}
    {st2 st : ParallelMoveResolverState}
    (h2 : getRegTargets st2 srcReg =
      { getRegTargets st srcReg with
        stackSlots := (getRegTargets st srcReg).stackSlots ++ [tgt] }) :
    (regSourceEdges st2 srcReg).Perm
      ((MoveOrigin.reg srcReg, MoveOrigin.stack tgt) ::
        regSourceEdges st srcReg) := by
  simp only [regSourceEdges, h2, List.map_append, List.map_cons, List.map_nil,
    ← List.append_assoc]
  exact List.perm_append_singleton _ _

theorem slotMapUpdate_insert_reg_perm {tgt : Nat} :
    ∀ (m : List (Nat × GapMoveTargets)) (key : Nat),
      (∀ p ∈ m, tgt ∉ p.2.registers) →
      ((slotMapUpdate m key
        (fun t => { t with registers := regListSet tgt t.registers })).flatMap
          slotEntryEdges).Perm
        ((MoveOrigin.stack key, MoveOrigin.reg tgt) ::
          m.flatMap slotEntryEdges) := by
  intro m
  induction m with
  | nil =>
    intro key _
    simp [slotMapUpdate, slotEntryEdges, emptyGapMoveTargets, regListSet]
  | cons e rest ih =>
    intro key hno
    obtain ⟨k, gt⟩ := e
    simp only [slotMapUpdate]
    split
    · rename_i hkey
      subst hkey
      simp only [List.flatMap_cons]
      exact ((slotEntryEdges_insert_reg_perm
        (hno (key, gt) (List.mem_cons_self _ _))).append_right _)
    · simp only [List.flatMap_cons]
      exact (((ih key (fun p hp => hno p (List.mem_cons_of_mem _ hp))).append_left
        (slotEntryEdges (k, gt))).trans List.perm_middle)

theorem slotMapUpdate_append_slot_perm {tgt : Nat} :
    ∀ (m : List (Nat × GapMoveTargets)) (key : Nat),
      ((slotMapUpdate m key
        (fun t => { t with stackSlots := t.stackSlots ++ [tgt] })).flatMap
          slotEntryEdges).Perm
        ((MoveOrigin.stack key, MoveOrigin.stack tgt) ::
          m.flatMap slotEntryEdges) := by
  intro m
  induction m with
  | nil =>
    intro key
    simp [slotMapUpdate, slotEntryEdges, emptyGapMoveTargets]
  | cons e rest ih =>
    intro key
    obtain ⟨k, gt⟩ := e
    simp only [slotMapUpdate]
    split
    · rename_i hkey
      subst hkey
      simp only [List.flatMap_cons]
      exact (slotEntryEdges_append_slot_perm.append_right _)
    · simp only [List.flatMap_cons]
      exact (((ih key).append_left (slotEntryEdges (k, gt))).trans
        List.perm_middle)

theorem recordMoveToRegister_ok_check (source : MoveSource) (tgt : Nat)
    {st st2 : ParallelMoveResolverState}
    (h : RecordMoveToRegister source tgt st = .ok st2) :
    CheckNoExistingMoveToRegister st tgt = true := by
  unfold RecordMoveToRegister at h
  cases hc : CheckNoExistingMoveToRegister st tgt
  · rw [hc] at h
    simp at h
  · rfl

theorem recordMoveToStackSlot_ok_check (source : MoveSource) (tgt : Nat)
    {st st2 : ParallelMoveResolverState}
    (h : RecordMoveToStackSlot source tgt st = .ok st2) :
    CheckNoExistingMoveToStackSlot st tgt = true := by
  unfold RecordMoveToStackSlot at h
  cases hc : CheckNoExistingMoveToStackSlot st tgt
  · rw [hc] at h
    simp at h
  · rfl

/-- A successful register-target recording either leaves the target
column of the move graph unchanged or inserts exactly the new target
once. -/
theorem recordMoveToRegister_ok_column (source : MoveSource) (tgt : Nat)
    {st st2 : ParallelMoveResolverState}
    (h : RecordMoveToRegister source tgt st = .ok st2) :
    ((moveEdges st2).map Prod.snd) = ((moveEdges st).map Prod.snd) ∨
    ((moveEdges st2).map Prod.snd).Perm
      (MoveOrigin.reg tgt :: (moveEdges st).map Prod.snd) := by
  have hc := recordMoveToRegister_ok_check source tgt h
  obtain ⟨hchk1, hchk2, _hchk3⟩ :=
    (checkNoExistingMoveToRegister_true_iff st tgt).mp hc
  unfold RecordMoveToRegister at h
  rw [hc] at h
  simp only [Bool.not_true, Bool.false_eq_true, if_false, Except.ok.injEq] at h
  cases source with
  | constant c =>
    subst h
    exact Or.inl (congrArg (List.map Prod.snd) (moveEdges_congr rfl rfl))
  | reg srcReg =>
    dsimp only at h
    by_cases hts : tgt ≠ srcReg
    · rw [if_pos hts] at h
      subst h
      by_cases hlen : st.movesFromRegister.length ≤ srcReg
      · refine Or.inl (congrArg (List.map Prod.snd) (moveEdges_congr ?_ rfl))
        simp [List.set_eq_of_length_le hlen]
      · push_neg at hlen
        by_cases hr16 : srcReg < kNumRegisters
        · refine Or.inr ?_
          have hgt2 : getRegTargets
              ({ st with movesFromRegister :=
                  (st.movesFromRegister.set srcReg
                    { getRegTargets st srcReg with
                      registers :=
                        regListSet tgt (getRegTargets st srcReg).registers }) })
              srcReg =
              { getRegTargets st srcReg with
                registers :=
                  regListSet tgt (getRegTargets st srcReg).registers } := by
            simp only [getRegTargets]
            exact getD_set_self _ _ _ hlen
          have hmemsrc : srcReg ∈ kAllocatableRegisters := by
            simp only [kAllocatableRegisters, List.mem_range]
            exact hr16
          have hnotin : tgt ∉ (getRegTargets st srcReg).registers :=
            hchk1 srcReg hmemsrc
          have hins := regSourceEdges_insert_reg_perm hgt2 hnotin
          have hne : ∀ r ∈ kAllocatableRegisters, r ≠ srcReg →
              regSourceEdges
                ({ st with movesFromRegister :=
                    (st.movesFromRegister.set srcReg
                      { getRegTargets st srcReg with
                        registers :=
                          regListSet tgt
                            (getRegTargets st srcReg).registers }) }) r =
              regSourceEdges st r := by
            intro r _ hrne
            simp only [regSourceEdges, getRegTargets]
            rw [getD_set_ne _ _ _ hrne]
          have hflat := flatMap_perm_insert hins
            (List.nodup_range kNumRegisters) hmemsrc hne
          have hedges : (moveEdges
              ({ st with movesFromRegister :=
                  (st.movesFromRegister.set srcReg
                    { getRegTargets st srcReg with
                      registers :=
                        regListSet tgt
                          (getRegTargets st srcReg).registers }) })).Perm
              ((MoveOrigin.reg srcReg, MoveOrigin.reg tgt) :: moveEdges st) :=
            hflat.append_right _
          exact (hedges.map Prod.snd)
        · refine Or.inl (congrArg (List.map Prod.snd) ?_)
          unfold moveEdges
          congr 1
          refine flatMap_congr_on (fun r hr => ?_)
          have hrne : r ≠ srcReg := by
            simp only [kAllocatableRegisters, List.mem_range] at hr
            omega
          simp only [regSourceEdges, getRegTargets]
          rw [getD_set_ne _ _ _ hrne]
    · rw [if_neg hts] at h
      subst h
      exact Or.inl rfl
  | stack srcSlot =>
    subst h
    refine Or.inr ?_
    have hstack := slotMapUpdate_insert_reg_perm st.movesFromStackSlot srcSlot
      (fun p hp => hchk2 p hp)
    have hedges : (moveEdges
        ({ st with movesFromStackSlot :=
            (slotMapUpdate st.movesFromStackSlot srcSlot
              (fun t =>
                { t with registers := regListSet tgt t.registers })) })).Perm
        ((MoveOrigin.stack srcSlot, MoveOrigin.reg tgt) :: moveEdges st) := by
      unfold moveEdges
      exact (hstack.append_left _).trans List.perm_middle
    exact hedges.map Prod.snd

/-- A successful stack-slot-target recording either leaves the target
column of the move graph unchanged or inserts exactly the new target
once. -/
theorem recordMoveToStackSlot_ok_column (source : MoveSource) (tgt : Nat)
    {st st2 : ParallelMoveResolverState}
    (h : RecordMoveToStackSlot source tgt st = .ok st2) :
    ((moveEdges st2).map Prod.snd) = ((moveEdges st).map Prod.snd) ∨
    ((moveEdges st2).map Prod.snd).Perm
      (MoveOrigin.stack tgt :: (moveEdges st).map Prod.snd) := by
  have hc := recordMoveToStackSlot_ok_check source tgt h
  unfold RecordMoveToStackSlot at h
  rw [hc] at h
  simp only [Bool.not_true, Bool.false_eq_true, if_false, Except.ok.injEq] at h
  cases source with
  | constant c =>
    subst h
    exact Or.inl (congrArg (List.map Prod.snd) (moveEdges_congr rfl rfl))
  | reg srcReg =>
    dsimp only at h
    subst h
    by_cases hlen : st.movesFromRegister.length ≤ srcReg
    · refine Or.inl (congrArg (List.map Prod.snd) (moveEdges_congr ?_ rfl))
      simp [List.set_eq_of_length_le hlen]
    · push_neg at hlen
      by_cases hr16 : srcReg < kNumRegisters
      · refine Or.inr ?_
        have hgt2 : getRegTargets
            ({ st with movesFromRegister :=
                (st.movesFromRegister.set srcReg
                  { getRegTargets st srcReg with
                    stackSlots :=
                      (getRegTargets st srcReg).stackSlots ++ [tgt] }) })
            srcReg =
            { getRegTargets st srcReg with
              stackSlots := (getRegTargets st srcReg).stackSlots ++ [tgt] } := by
          simp only [getRegTargets]
          exact getD_set_self _ _ _ hlen
        have hmemsrc : srcReg ∈ kAllocatableRegisters := by
          simp only [kAllocatableRegisters, List.mem_range]
          exact hr16
        have hins := @regSourceEdges_append_slot_perm srcReg tgt _ st hgt2
        have hne : ∀ r ∈ kAllocatableRegisters, r ≠ srcReg →
            regSourceEdges
              ({ st with movesFromRegister :=
                  (st.movesFromRegister.set srcReg
                    { getRegTargets st srcReg with
                      stackSlots :=
                        (getRegTargets st srcReg).stackSlots ++ [tgt] }) }) r =
            regSourceEdges st r := by
          intro r _ hrne
          simp only [regSourceEdges, getRegTargets]
          rw [getD_set_ne _ _ _ hrne]
        have hflat := flatMap_perm_insert hins
          (List.nodup_range kNumRegisters) hmemsrc hne
        have hedges := hflat.append_right
          (st.movesFromStackSlot.flatMap slotEntryEdges)
        exact hedges.map Prod.snd
      · refine Or.inl (congrArg (List.map Prod.snd) ?_)
        unfold moveEdges
        congr 1
        refine flatMap_congr_on (fun r hr => ?_)
        have hrne : r ≠ srcReg := by
          simp only [kAllocatableRegisters, List.mem_range] at hr
          omega
        simp only [regSourceEdges, getRegTargets]
        rw [getD_set_ne _ _ _ hrne]
  | stack srcSlot =>
    dsimp only at h
    by_cases hts : srcSlot ≠ tgt
    · rw [if_pos hts] at h
      subst h
      refine Or.inr ?_
      have hstack := @slotMapUpdate_append_slot_perm
        tgt st.movesFromStackSlot srcSlot
      have hedges : (moveEdges
          ({ st with movesFromStackSlot :=
              (slotMapUpdate st.movesFromStackSlot srcSlot
                (fun t =>
                  { t with stackSlots := t.stackSlots ++ [tgt] })) })).Perm
          ((MoveOrigin.stack srcSlot, MoveOrigin.stack tgt) ::
            moveEdges st) := by
        unfold moveEdges
        exact (hstack.append_left _).trans List.perm_middle
      exact hedges.map Prod.snd
    · rw [if_neg hts] at h
      subst h
      exact Or.inl rfl

theorem recordMoveToRegister_ok_preserves_targetsUnique
    (source : MoveSource) (tgt : Nat) {st st2 : ParallelMoveResolverState}
    (h : RecordMoveToRegister source tgt st = .ok st2)
    (hu : targetsUnique st) : targetsUnique st2 := by
  rcases recordMoveToRegister_ok_column source tgt h with heq | hperm
  · unfold targetsUnique at hu ⊢
    rw [heq]
    exact hu
  · unfold targetsUnique at hu ⊢
    rw [hperm.nodup_iff, List.nodup_cons]
    refine ⟨?_, hu⟩
    obtain ⟨h1, h2, _⟩ := (checkNoExistingMoveToRegister_true_iff st tgt).mp
      (recordMoveToRegister_ok_check source tgt h)
    rw [mem_moveEdges_snd_reg]
    rintro (⟨r, hr, hm⟩ | ⟨p, hp, hm⟩)
    · exact h1 r hr hm
    · exact h2 p hp hm

theorem recordMoveToStackSlot_ok_preserves_targetsUnique
    (source : MoveSource) (tgt : Nat) {st st2 : ParallelMoveResolverState}
    (h : RecordMoveToStackSlot source tgt st = .ok st2)
    (hu : targetsUnique st) : targetsUnique st2 := by
  rcases recordMoveToStackSlot_ok_column source tgt h with heq | hperm
  · unfold targetsUnique at hu ⊢
    rw [heq]
    exact hu
  · unfold targetsUnique at hu ⊢
    rw [hperm.nodup_iff, List.nodup_cons]
    refine ⟨?_, hu⟩
    obtain ⟨h1, h2, _⟩ := (checkNoExistingMoveToStackSlot_true_iff st tgt).mp
      (recordMoveToStackSlot_ok_check source tgt h)
    rw [mem_moveEdges_snd_stack]
    rintro (⟨r, hr, hm⟩ | ⟨p, hp, hm⟩)
    · exact h1 r hr hm
    · exact h2 p hp hm

theorem recordMove_ok_preserves_targetsUnique
    (source : MoveSource) (target : MoveOrigin)
    {st st2 : ParallelMoveResolverState}
    (h : RecordMove source target st = .ok st2)
    (hu : targetsUnique st) : targetsUnique st2 := by
  cases target with
  | reg code =>
    exact recordMoveToRegister_ok_preserves_targetsUnique source code h hu
  | stack slot =>
    exact recordMoveToStackSlot_ok_preserves_targetsUnique source slot h hu

theorem foldRecord_targetsUnique :
    ∀ (moves : List (MoveSource × MoveOrigin))
      (st0 : ParallelMoveResolverState) {st : ParallelMoveResolverState},
      targetsUnique st0 →
      moves.foldlM (fun s p => RecordMove p.1 p.2 s) st0 = .ok st →
      targetsUnique st := by
  intro moves
  induction moves with
  | nil =>
    intro st0 st hu h
    change Except.ok st0 = Except.ok st at h
    cases h
    exact hu
  | cons p rest ih =>
    intro st0 st hu h
    change (RecordMove p.1 p.2 st0 >>= fun s =>
      rest.foldlM (fun s q => RecordMove q.1 q.2 s) s) = Except.ok st at h
    cases hrec : RecordMove p.1 p.2 st0 with
    | error e =>
      rw [hrec] at h
      exact absurd h (by simp [Bind.bind, Except.bind])
    | ok s1 =>
      rw [hrec] at h
      simp only [Bind.bind, Except.bind] at h
      exact ih s1
        (recordMove_ok_preserves_targetsUnique p.1 p.2 hrec hu) h

/-- Every resolver state reachable by successful (non-fatal) recordings
from the empty resolver satisfies the one-move-per-target invariant. -/
theorem recordMovesAll_targetsUnique
    {moves : List (MoveSource × MoveOrigin)}
    {st : ParallelMoveResolverState}
    (h : RecordMovesAll moves = .ok st) : targetsUnique st :=
  foldRecord_targetsUnique moves initialResolver
    (by unfold targetsUnique; decide) h

/-- C9 (amended): recording a move into an already-targeted register or
stack slot is exactly the fatal (`FATAL`) case of the record functions,
so every location is the target of at most one recorded move; every
resolver state produced by a successful sequence of recordings satisfies
that one-move-per-target invariant; and in a move graph satisfying the
invariant, any two locations lying on directed cycles in the same
connected component reach each other — each connected component contains
at most one cycle. -/
theorem c9_one_move_per_target_and_one_cycle_per_component :
    (∀ (st : ParallelMoveResolverState) (source : MoveSource) (tgt : Nat),
      tgt < kNumRegisters →
      (RecordMoveToRegister source tgt st = .error () ↔
        isTargetedLoc st (MoveOrigin.reg tgt))) ∧
    (∀ (st : ParallelMoveResolverState) (source : MoveSource) (tgt : Nat),
      RecordMoveToStackSlot source tgt st = .error () ↔
        isTargetedLoc st (MoveOrigin.stack tgt)) ∧
    (∀ (st : ParallelMoveResolverState) (u v : MoveOrigin),
      targetsUnique st → OnMoveCycle st u → OnMoveCycle st v →
      MoveConn st u v →
      Relation.ReflTransGen (MoveEdge st) u v ∧
      Relation.ReflTransGen (MoveEdge st) v u) ∧
    (∀ (moves : List (MoveSource × MoveOrigin))
       (st : ParallelMoveResolverState),
      RecordMovesAll moves = .ok st → targetsUnique st) :=
  ⟨fun st source tgt h => recordMoveToRegister_error_iff source tgt st h,
   fun st source tgt => recordMoveToStackSlot_error_iff source tgt st,
   fun _st _u _v hw hu hv hconn =>
     backdet_at_most_one_cycle_per_component (moveEdge_backdet hw) hu hv hconn,
   fun _moves _st h => recordMovesAll_targetsUnique h⟩

/-- C9 witness: concrete instances — recording a second move into the
occupied register 1 is fatal; recording a move into the occupied stack
slot 1 of the two-slot cycle is fatal; the two on-cycle slots of the
cycle reach each other along the move graph; and the state recorded
from the two-slot cycle move list satisfies the invariant. -/
theorem c9_one_move_per_target_witness :
    RecordMoveToRegister (.reg 0) 1 regTargetTakenState = .error () ∧
    RecordMoveToStackSlot (.reg 0) 1 stackCycleState = .error () ∧
    (Relation.ReflTransGen (MoveEdge stackCycleState)
      (MoveOrigin.stack 1) (MoveOrigin.stack 2) ∧
     Relation.ReflTransGen (MoveEdge stackCycleState)
      (MoveOrigin.stack 2) (MoveOrigin.stack 1)) ∧
    targetsUnique stackCycleState := by
  have e12 : MoveEdge stackCycleState (MoveOrigin.stack 1) (MoveOrigin.stack 2) := by
    unfold MoveEdge
    decide
  have e21 : MoveEdge stackCycleState (MoveOrigin.stack 2) (MoveOrigin.stack 1) := by
    unfold MoveEdge
    decide
  refine ⟨?_, ?_, ?_, ?_⟩
  · exact (c9_one_move_per_target_and_one_cycle_per_component.1
      regTargetTakenState (.reg 0) 1 (by decide)).mpr
      (by unfold isTargetedLoc moveEdges materializationTargets; decide)
  · exact (c9_one_move_per_target_and_one_cycle_per_component.2.1
      stackCycleState (.reg 0) 1).mpr
      (by unfold isTargetedLoc moveEdges materializationTargets; decide)
  · exact c9_one_move_per_target_and_one_cycle_per_component.2.2.1
      stackCycleState (MoveOrigin.stack 1) (MoveOrigin.stack 2)
      (by unfold targetsUnique; decide)
      (Relation.TransGen.tail (Relation.TransGen.single e12) e21)
      (Relation.TransGen.tail (Relation.TransGen.single e21) e12)
      (Relation.ReflTransGen.single (Or.inl e12))
  · exact c9_one_move_per_target_and_one_cycle_per_component.2.2.2
      [(MoveSource.stack 1, MoveOrigin.stack 2),
       (MoveSource.stack 2, MoveOrigin.stack 1)]
      stackCycleState rfl

end Maglev
